import Mathlib

/-!
Verification development for the litellm-modify administrative control plane:
a shallow embedding of the key-management endpoints
(src/litellm/proxy/management_endpoints/key_management_endpoints.py),
the team-management endpoints
(src/litellm/proxy/management_endpoints/team_endpoints.py)
and the callback convenience wrappers
(src/litellm/integrations/custom_logger.py),
together with theorems settling the frozen claims C1 to C10.

Python dictionaries are embedded as association lists over a JSON-like value
type `JVal`; Python exceptions are embedded with `Except`; the wall clock,
the random token generator and the token hash are passed in as explicit
parameters.  Functions whose bodies live outside the three supplied source
files (the duration normalizer, the storage layer, the role constants) are
modelled from the specification and carry a doc comment saying so.
-/

/-- JSON-like values: the embedding of Python dict values. -/
inductive JVal where
  | jnull
  | jbool (b : Bool)
  | jnum (n : Int)
  | jstr (s : String)
  | jlist (xs : List JVal)
  | jdict (kvs : List (String × JVal))

/-- Embedding of a Python dict (string keys, insertion ordered). -/
abbrev Dict := List (String × JVal)

/-- Python truthiness of an embedded value. -/
def JVal.truthy : JVal → Bool
  | .jnull => false
  | .jbool b => b
  | .jnum n => !(n == 0)
  | .jstr s => !(s == "")
  | .jlist xs => !xs.isEmpty
  | .jdict kvs => !kvs.isEmpty

/-- The Python test `not isinstance(v, bool) and v in ([], {}, 0)`:
a bare non-boolean falsy value (empty list, empty dict, numeric zero).
The empty string is NOT in the tuple, and booleans are excluded by the
isinstance guard even though False == 0 in Python. -/
def JVal.bare_falsy : JVal → Bool
  | .jnum n => n == 0
  | .jlist xs => xs.isEmpty
  | .jdict kvs => kvs.isEmpty
  | _ => false

/-- Lookup in an embedded dict (first binding wins, as keys are unique). -/
def dictLookup (d : Dict) (k : String) : Option JVal :=
  (d.find? (fun p => p.1 == k)).map (fun p => p.2)

/-- Key-membership test, the Python `k in d`. -/
def dictContains (d : Dict) (k : String) : Bool :=
  d.any (fun p => p.1 == k)

/-- The Python `d[k] = v`: replace the binding in place when the key exists
(keys are unique, so replacing the first occurrence suffices), else append. -/
def dictSet (d : Dict) (k : String) (v : JVal) : Dict :=
  match d with
  | [] => [(k, v)]
  | p :: rest => if p.1 == k then (k, v) :: rest else p :: dictSet rest k v

/-- The Python `d.pop(k, None)` effect on the dict. -/
def dictRemove (d : Dict) (k : String) : Dict :=
  d.filter (fun p => !(p.1 == k))

/-- The Python `d.update(e)`: bindings of `e` override bindings of `d`. -/
def dictUpdate (d e : Dict) : Dict :=
  e.foldl (fun acc p => dictSet acc p.1 p.2) d

/-- Pydantic attribute access backed by an exclude-unset dict: an unset
field reads as its default `None`. -/
def dictGetAttr (d : Dict) (k : String) : JVal :=
  (dictLookup d k).getD .jnull

/-- Whether the pattern occurs in the haystack starting at its head. -/
def chars_start_with : List Char → List Char → Bool
  | _, [] => true
  | [], _ :: _ => false
  | c :: cs, p :: ps => c == p && chars_start_with cs ps

/-- Whether the pattern occurs anywhere in the haystack. -/
def chars_have_sub : List Char → List Char → Bool
  | [], pat => pat.isEmpty
  | c :: cs, pat => chars_start_with (c :: cs) pat || chars_have_sub cs pat

/-- The Python substring test `pat in s`. -/
def str_has_sub (s pat : String) : Bool :=
  chars_have_sub s.toList pat.toList

/-- The Python `s[-n:]`. -/
def str_take_right (s : String) (n : Nat) : String :=
  String.mk ((s.toList.reverse.take n).reverse)

/-- Modelled from the spec: `_duration_in_seconds` (litellm.proxy.utils, not
under src/).  Duration strings use an `<integer><unit>` format where the unit
is s, m, h or d (seconds, minutes, hours, days); the computed length is
n * 1, 60, 3600 or 86400 seconds respectively.  A malformed string makes the
real helper raise, embedded as `none`. -/
def duration_in_seconds (s : String) : Option Nat :=
  let num := s.dropRight 1
  let unit := str_take_right s 1
  match num.toNat? with
  | none => none
  | some k =>
    if unit == "s" then some k
    else if unit == "m" then some (k * 60)
    else if unit == "h" then some (k * 3600)
    else if unit == "d" then some (k * 86400)
    else none

/-- Modelled from the spec: the value of `LitellmUserRoles.PROXY_ADMIN`
(litellm.proxy._types, not under src/), the full proxy administrator role. -/
def PROXY_ADMIN : String := "proxy_admin"

/-- Modelled from the spec: the value of
`LitellmUserRoles.PROXY_ADMIN_VIEW_ONLY` (litellm.proxy._types, not under
src/), the view-only proxy administrator role. -/
def PROXY_ADMIN_VIEW_ONLY : String := "proxy_admin_viewer"

/-- Error taxonomy tag `auth_error`. -/
def AUTH_ERROR : String := "auth_error"

/-- Error taxonomy tag `bad_request_error`. -/
def BAD_REQUEST_ERROR : String := "bad_request_error"

/-- An HTTPException: status code plus detail message. -/
structure HTTPErr where
  status : Nat
  detail : String
deriving DecidableEq, Repr

/-- A structured ProxyException after boundary normalization: HTTP code,
taxonomy type tag, message. -/
structure ProxyErr where
  code : Nat
  etype : String
  message : String
deriving DecidableEq, Repr

/-- A raw Python exception before boundary normalization: HTTPException,
ProxyException, or any other exception carrying only a message. -/
inductive PyErr where
  | http (stat : Nat) (detail : String)
  | proxy (code : Nat) (etype : String) (message : String)
  | exn (message : String)
deriving DecidableEq, Repr

/-- The boundary normalization shared by the key endpoints: an HTTPException
becomes a ProxyException of type auth_error keeping its status, a
ProxyException passes through unchanged, and any other exception becomes a
400 auth_error with the message prefixed `Authentication Error, `. -/
def normalize_proxy_exception : PyErr → ProxyErr
  | .http stat detail => ⟨stat, AUTH_ERROR, detail⟩
  | .proxy c t m => ⟨c, t, m⟩
  | .exn m => ⟨400, AUTH_ERROR, "Authentication Error, " ++ m⟩

/-- The caller-identity object produced by the external auth dependency
(`UserAPIKeyAuth`), restricted to the fields the claims touch. -/
structure UserAPIKeyAuth where
  api_key : Option String := none
  user_id : Option String := none
  user_role : Option String := none
  team_id : Option String := none
deriving DecidableEq, Repr

/-- One entry of a team member roster (`Member`). -/
structure Member where
  role : String
  user_id : Option String := none
  user_email : Option String := none
deriving DecidableEq, Repr

/-- A team row (`LiteLLM_TeamTable`), restricted to the fields the claims
touch. -/
structure LiteLLM_TeamTable where
  team_id : Option String := none
  members_with_roles : List Member := []
deriving DecidableEq, Repr

/-- A user row (`LiteLLM_UserTable`), restricted to the fields the claims
touch. -/
structure UserTable where
  user_id : Option String := none
  user_email : Option String := none
  teams : List String := []
deriving DecidableEq, Repr

/-- team_endpoints.py lines 53-60: scans the roster for a member whose
non-null user id equals the caller user id.  Note that the role of the
matched member is not inspected. -/
def _is_user_team_admin (auth : UserAPIKeyAuth) (team : LiteLLM_TeamTable) :
    Bool :=
  team.members_with_roles.any
    (fun m => m.user_id.isSome && m.user_id == auth.user_id)

/-- Request body of POST /team/member_add (`TeamMemberAddRequest`).  The
source accepts a single Member or a list; both shapes are embedded as a
list, `none` standing for the absent member field. -/
structure TeamMemberAddRequest where
  team_id : Option String := none
  member : Option (List Member) := none
deriving DecidableEq, Repr

/-- Request body of POST /team/member_delete (`TeamMemberDeleteRequest`). -/
structure TeamMemberDeleteRequest where
  team_id : Option String := none
  user_id : Option String := none
  user_email : Option String := none
deriving DecidableEq, Repr

/-- Request body of POST /team/member_update (`TeamMemberUpdateRequest`),
restricted to the fields the authorization stage reads. -/
structure TeamMemberUpdateRequest where
  team_id : Option String := none
  user_id : Option String := none
  user_email : Option String := none
deriving DecidableEq, Repr

/-- team_endpoints.py lines 512-558: the validation and authorization stage
of POST /team/member_add, up to and including the proxy-admin-or-team-admin
check; every database mutation of the endpoint comes after this stage.  The
`hasattr(user_api_key_dict, "user_role")` conjunct of the source is always
true for the pydantic caller-identity object and is dropped. -/
def team_member_add_auth (data : TeamMemberAddRequest)
    (auth : UserAPIKeyAuth) (teams : List LiteLLM_TeamTable) :
    Except HTTPErr LiteLLM_TeamTable :=
  match data.team_id with
  | none => .error ⟨400, "No team id passed in"⟩
  | some tid =>
    match data.member with
    | none => .error ⟨400, "No member/members passed in"⟩
    | some _ =>
      match teams.find? (fun t => t.team_id == some tid) with
      | none => .error ⟨404, "Team not found for team_id=" ++ tid⟩
      | some complete_team_data =>
        if !(auth.user_role == some PROXY_ADMIN) &&
            !(_is_user_team_admin auth complete_team_data) then
          .error ⟨403,
            "Call not allowed. User not proxy admin OR team admin. " ++
              "route=/team/member_add"⟩
        else .ok complete_team_data

/-- Whether a roster member matches the delete filter of
/team/member_delete (team_endpoints.py lines 740-752): the member is
dropped when its non-null user id equals a given user id, or its non-null
user email equals a given user email. -/
def member_matches_delete (data : TeamMemberDeleteRequest) (m : Member) :
    Bool :=
  (data.user_id.isSome && m.user_id.isSome && data.user_id == m.user_id) ||
    (data.user_email.isSome && m.user_email.isSome &&
      data.user_email == m.user_email)

/-- The Python `list.remove(x)`: removes the first occurrence only. -/
def remove_first (l : List String) (x : String) : List String :=
  match l with
  | [] => []
  | a :: rest => if a == x then rest else a :: remove_first rest x

/-- team_endpoints.py lines 667-791: POST /team/member_delete.  Validates
the request, loads the team (400 when missing), runs the
proxy-admin-or-team-admin check (403), filters the roster, persists the
filtered roster, and removes the team id from every matching user row.
Returns the team record with the roster already updated, together with the
updated team table and user table. -/
def team_member_delete (data : TeamMemberDeleteRequest)
    (auth : UserAPIKeyAuth) (teams : List LiteLLM_TeamTable)
    (users : List UserTable) :
    Except HTTPErr (LiteLLM_TeamTable × List LiteLLM_TeamTable ×
      List UserTable) :=
  match data.team_id with
  | none => .error ⟨400, "No team id passed in"⟩
  | some tid =>
    if data.user_id.isNone && data.user_email.isNone then
      .error ⟨400, "Either user_id or user_email needs to be passed in"⟩
    else
      match teams.find? (fun t => t.team_id == some tid) with
      | none => .error ⟨400, "Team id=" ++ tid ++ " does not exist in db"⟩
      | some existing_team_row =>
        if !(auth.user_role == some PROXY_ADMIN) &&
            !(_is_user_team_admin auth existing_team_row) then
          .error ⟨403,
            "Call not allowed. User not proxy admin OR team admin. " ++
              "route=/team/member_delete"⟩
        else
          let new_team_members := existing_team_row.members_with_roles.filter
            (fun m => !(member_matches_delete data m))
          let updated_row :=
            { existing_team_row with members_with_roles := new_team_members }
          let teams2 := teams.map (fun t =>
            if t.team_id == some tid then
              { t with members_with_roles := new_team_members }
            else t)
          let user_filter := fun (u : UserTable) =>
            match data.user_id with
            | some uid => u.user_id == some uid
            | none =>
              match data.user_email with
              | some em => u.user_email == some em
              | none => true
          let users2 := users.map (fun u =>
            if user_filter u && u.teams.contains tid then
              { u with teams := remove_first u.teams tid }
            else u)
          .ok (updated_row, teams2, users2)

/-- team_endpoints.py lines 801-856: the validation and authorization stage
of POST /team/member_update, up to and including the
proxy-admin-or-team-admin check; every database mutation of the endpoint
comes after this stage. -/
def team_member_update_auth (data : TeamMemberUpdateRequest)
    (auth : UserAPIKeyAuth) (teams : List LiteLLM_TeamTable) :
    Except HTTPErr LiteLLM_TeamTable :=
  match data.team_id with
  | none => .error ⟨400, "No team id passed in"⟩
  | some tid =>
    if data.user_id.isNone && data.user_email.isNone then
      .error ⟨400, "Either user_id or user_email needs to be passed in"⟩
    else
      match teams.find? (fun t => t.team_id == some tid) with
      | none => .error ⟨400, "Team id=" ++ tid ++ " does not exist in db"⟩
      | some existing_team_row =>
        if !(auth.user_role == some PROXY_ADMIN) &&
            !(_is_user_team_admin auth existing_team_row) then
          .error ⟨403,
            "Call not allowed. User not proxy admin OR team admin. " ++
              "route=/team/member_delete"⟩
        else .ok existing_team_row

/-- The authorization rule as the claim states it: the caller appears in the
team roster with a matching non-null user id AND with role admin. -/
def claim_team_admin (auth : UserAPIKeyAuth) (team : LiteLLM_TeamTable) :
    Bool :=
  team.members_with_roles.any
    (fun m => m.user_id.isSome && m.user_id == auth.user_id &&
      m.role == "admin")

/-- team_endpoints.py lines 1230-1242: the authorization gate of
GET /team/list, followed by the member filtering of lines 1250-1265.  The
remainder of the endpoint (membership aggregation, per-team key lookup) is
not needed by the claims and is omitted; success of this function means the
request got past the 401 gate. -/
def list_team (auth : UserAPIKeyAuth) (user_id : Option String)
    (teams : List LiteLLM_TeamTable) :
    Except HTTPErr (List LiteLLM_TeamTable) :=
  if !(auth.user_role == some PROXY_ADMIN) &&
      !(auth.user_role == some PROXY_ADMIN_VIEW_ONLY) &&
      !(auth.user_id == user_id) then
    .error ⟨401, "Only admin users can query all teams/other teams"⟩
  else
    .ok (list_team_filter teams user_id)
where
  /-- team_endpoints.py lines 1252-1265: with a truthy user_id filter, walk
  every team and append the team once for every roster entry whose non-null
  user id matches; otherwise return every team. -/
  list_team_filter (teams : List LiteLLM_TeamTable)
      (user_id : Option String) : List LiteLLM_TeamTable :=
    match user_id with
    | some uid =>
      if uid == "" then teams
      else
        teams.foldl (fun acc team =>
          if team.members_with_roles.isEmpty then acc
          else
            team.members_with_roles.foldl (fun acc2 m =>
              if m.user_id.isSome && m.user_id == some uid then
                acc2 ++ [team]
              else acc2) acc) []
    | none => teams

/-- custom_logger.py lines 212-222: `CustomLogger.log_input_event`.  The
wrapper sets model, messages and the `pre_api_call` event tag on the call
record, invokes the caller-supplied callback on it, and swallows (logging)
any exception the callback raises.  The first component of the result is the
call record exactly as handed to the callback; the second is the swallowed
error, when one was raised. -/
def log_input_event (callback_func : Dict → Except String Unit)
    (model messages : JVal) (kwargs : Dict) : Dict × Option String :=
  let kwargs := dictSet kwargs "model" model
  let kwargs := dictSet kwargs "messages" messages
  let kwargs := dictSet kwargs "log_event_type" (.jstr "pre_api_call")
  match callback_func kwargs with
  | .ok _ => (kwargs, none)
  | .error e => (kwargs, some e)

/-- custom_logger.py lines 224-236: `CustomLogger.async_log_input_event`,
the awaiting twin of `log_input_event` with the same behavior. -/
def async_log_input_event (callback_func : Dict → Except String Unit)
    (model messages : JVal) (kwargs : Dict) : Dict × Option String :=
  let kwargs := dictSet kwargs "model" model
  let kwargs := dictSet kwargs "messages" messages
  let kwargs := dictSet kwargs "log_event_type" (.jstr "pre_api_call")
  match callback_func kwargs with
  | .ok _ => (kwargs, none)
  | .error e => (kwargs, some e)

/-- custom_logger.py lines 238-252: `CustomLogger.log_event`.  The wrapper
sets the `post_api_call` event tag on the call record and invokes the
callback with the record, the response object and the two timestamps as
positional arguments, swallowing (logging) any raised exception.  The first
component is the exact positional argument tuple handed to the callback. -/
def log_event (callback_func : Dict → JVal → Int → Int → Except String Unit)
    (kwargs : Dict) (response_obj : JVal) (start_time end_time : Int) :
    (Dict × JVal × Int × Int) × Option String :=
  let kwargs := dictSet kwargs "log_event_type" (.jstr "post_api_call")
  match callback_func kwargs response_obj start_time end_time with
  | .ok _ => ((kwargs, response_obj, start_time, end_time), none)
  | .error e => ((kwargs, response_obj, start_time, end_time), some e)

/-- custom_logger.py lines 254-268: `CustomLogger.async_log_event`, the
awaiting twin of `log_event` with the same behavior. -/
def async_log_event
    (callback_func : Dict → JVal → Int → Int → Except String Unit)
    (kwargs : Dict) (response_obj : JVal) (start_time end_time : Int) :
    (Dict × JVal × Int × Int) × Option String :=
  let kwargs := dictSet kwargs "log_event_type" (.jstr "post_api_call")
  match callback_func kwargs response_obj start_time end_time with
  | .ok _ => ((kwargs, response_obj, start_time, end_time), none)
  | .error e => ((kwargs, response_obj, start_time, end_time), some e)

/-- The token/key-name slice of the generation data written and returned by
the key-generation helper. -/
structure KeyDataSlice where
  token : String
  key_name : Option String
deriving DecidableEq, Repr

/-- key_management_endpoints.py lines 851-855 and 943-948: the token choice
and display-name slice of `generate_key_helper_fn`.  When the caller
supplies no token, a caller-supplied `key` value is adopted verbatim;
otherwise a fresh `sk-` token is minted from the random generator.  The
display name is the `sk-...` prefix plus the last four characters of the
token, unless disabled by the DISABLE_KEY_NAME secret. -/
def generate_key_helper_fn (disable_key_name : Bool)
    (token key : Option String) (rand : String) : KeyDataSlice :=
  let token :=
    match token with
    | some t => t
    | none =>
      match key with
      | some k => k
      | none => "sk-" ++ rand
  { token := token,
    key_name :=
      if disable_key_name then none
      else some ("sk-..." ++ str_take_right token 4) }

/-- A verification-token row for the regenerate model: an abstract row
identity (preserved by updates), the stored token (the where-key of the
table), the display name, and the remaining columns as a dict. -/
structure VKRow where
  row_uid : Nat
  token : String
  key_name : Option String := none
  fields : Dict := []

/-- key_management_endpoints.py lines 1076-1182: POST /key/regenerate.
Premium gate; resolve the incoming key to its hashed form (a value without
the substring `sk` is taken as already hashed); 404 when no row matches;
mint a fresh token, hash and display name; apply them (plus the prepared
caller overrides, taken here as an already-prepared patch) as an update
keyed by the OLD hash; evict the cache entry at `hash_token(key)` twice, as
the source does in both eviction blocks; return the updated row with the
new plain token substituted in.  The hash function and the random token are
explicit parameters.  The cache is the list of keys holding an entry. -/
def regenerate_key_fn (hash_token : String → String) (rand : String)
    (premium_user : Bool) (key : String) (patch : Dict)
    (db : List VKRow) (cache : List String) :
    Except PyErr (VKRow × List VKRow × List String) :=
  if !premium_user then
    .error (.exn "Regenerating Virtual Keys is an Enterprise feature")
  else
    let hashed_api_key :=
      if !(str_has_sub key "sk") then key else hash_token key
    match db.find? (fun r => r.token == hashed_api_key) with
    | none => .error (.http 404 ("Key " ++ key ++ " not found."))
    | some _key_in_db =>
      let new_token := "sk-" ++ rand
      let new_token_hash := hash_token new_token
      let new_token_key_name := "sk-..." ++ str_take_right new_token 4
      let updated_token :=
        { _key_in_db with
          token := new_token_hash,
          key_name := some new_token_key_name,
          fields := dictUpdate _key_in_db.fields patch }
      let db2 := db.map (fun r =>
        if r.token == hashed_api_key then updated_token else r)
      let updated_token_dict := { updated_token with token := new_token }
      let cache := cache.filter (fun c => !(c == hash_token key))
      let cache := cache.filter (fun c => !(c == hash_token key))
      .ok (updated_token_dict, db2, cache)

/-- A verification-token row for the delete model: the stored token and the
owning user id. -/
structure KeyRow where
  token : String
  user_id : Option String := none
deriving DecidableEq, Repr

/-- The Python `str(...)` of an optional string, `None` rendered as the
word None. -/
def py_str_opt : Option String → String
  | none => "None"
  | some s => s

/-- Modelled from the spec: `PrismaClient.delete_data` (litellm.proxy.utils,
not under src/).  Deletes the rows whose token is in the requested list,
additionally scoped to the given owner when a user id is passed as a filter
(ownership enforced at the storage layer); returns the remaining rows and
the count of deleted rows. -/
def prisma_delete_data (db : List KeyRow) (tokens : List String)
    (user_id : Option String) : List KeyRow × Nat :=
  let hit := fun (r : KeyRow) =>
    tokens.contains r.token && (user_id.isNone || r.user_id == user_id)
  (db.filter (fun r => !(hit r)), (db.filter hit).length)

/-- key_management_endpoints.py lines 1033-1067: `delete_verification_token`.
When the acting user id equals the reserved proxy-admin name the deletion is
unscoped with no count verification; otherwise the deletion is scoped to the
acting user id and a deleted count different from the requested count raises
a plain exception naming the user (a message without the counts). -/
def delete_verification_token (litellm_proxy_admin_name : String)
    (db : List KeyRow) (tokens : List String) (user_id : Option String) :
    Except PyErr (List KeyRow × Nat) :=
  if user_id == some litellm_proxy_admin_name then
    .ok (prisma_delete_data db tokens none)
  else
    let deleted_tokens := prisma_delete_data db tokens user_id
    if !(deleted_tokens.2 == tokens.length) then
      .error (.exn
        ("Failed to delete all tokens. Tried to delete tokens that dont " ++
          "belong to user: " ++ py_str_opt user_id))
    else .ok deleted_tokens

/-- key_management_endpoints.py lines 523-538: the audit-logging branch of
POST /key/delete looks every requested key up and raises at the first one
missing from the database; with audit logging disabled no key is looked up.
This helper returns the first missing key of that branch, `none` when the
branch is skipped or every key exists. -/
def delete_audit_missing_key (store_audit_logs : Bool) (keys : List String)
    (db : List KeyRow) : Option String :=
  if store_audit_logs then
    keys.find? (fun k => (db.find? (fun r => r.token == k)).isNone)
  else none

/-- key_management_endpoints.py lines 512-521: the acting user id of
POST /key/delete: the deletion scope is the caller user id, nulled (made
unscoped) when the caller role is the full proxy admin role. -/
def delete_acting_user_id (auth : UserAPIKeyAuth) : Option String :=
  if auth.user_role.isSome && auth.user_role == some PROXY_ADMIN then none
  else auth.user_id

/-- key_management_endpoints.py lines 471-595: the body of
POST /key/delete before boundary normalization.  Rejects an empty key list
(400 ProxyException); nulls the acting user id for a full proxy admin; when
audit logging is enabled, checks every requested key for existence and
raises a 404 ProxyException at the first miss; delegates to
`delete_verification_token`; compares the requested count with the deleted
count and raises a 400 HTTPException stating both counts on mismatch;
finally evicts the plain and hashed cache entries of every requested key.
Returns the remaining rows, the response key list and the cache. -/
def delete_key_fn_body (hash_token : String → String)
    (store_audit_logs : Bool) (litellm_proxy_admin_name : String)
    (auth : UserAPIKeyAuth) (keys : List String) (db : List KeyRow)
    (cache : List String) :
    Except PyErr (List KeyRow × List String × List String) :=
  if keys.length == 0 then
    .error (.proxy 400 AUTH_ERROR "No keys provided, passed in: keys=[]")
  else
    let user_id := delete_acting_user_id auth
    match delete_audit_missing_key store_audit_logs keys db with
    | some missing =>
      .error (.proxy 404 BAD_REQUEST_ERROR ("Key " ++ missing ++ " not found"))
    | none =>
      match delete_verification_token litellm_proxy_admin_name db keys
          user_id with
      | .error e => .error e
      | .ok (db2, number_deleted_keys) =>
        if !(keys.length == number_deleted_keys) then
          .error (.http 400
            ("Not all keys passed in were deleted. This probably means " ++
              "you dont have access to delete all the keys passed in. " ++
              "Keys passed in=" ++ toString keys.length ++
              ", Deleted keys =" ++ toString number_deleted_keys))
        else
          let cache2 := keys.foldl (fun c k =>
            (c.filter (fun x => !(x == k))).filter
              (fun x => !(x == hash_token k))) cache
          .ok (db2, keys, cache2)

/-- key_management_endpoints.py lines 596-611: POST /key/delete with its
boundary normalization applied. -/
def delete_key_fn (hash_token : String → String) (store_audit_logs : Bool)
    (litellm_proxy_admin_name : String) (auth : UserAPIKeyAuth)
    (keys : List String) (db : List KeyRow) (cache : List String) :
    Except ProxyErr (List KeyRow × List String × List String) :=
  match delete_key_fn_body hash_token store_audit_logs
      litellm_proxy_admin_name auth keys db cache with
  | .ok r => .ok r
  | .error e => .error (normalize_proxy_exception e)

/-- Modelled from the spec: the operator-configured upperbound-parameters
record (`LiteLLM_UpperboundKeyGenerateParams`, litellm.proxy._types, not
under src/): the four numeric ceilings and the two duration ceilings of
section 4.2 step (3), every field optional. -/
structure UpperboundKeyGenerateParams where
  max_budget : Option Int := none
  max_parallel_requests : Option Int := none
  tpm_limit : Option Int := none
  rpm_limit : Option Int := none
  budget_duration : Option String := none
  duration : Option String := none
deriving DecidableEq, Repr

/-- Modelled from the spec: the slice of the create-key request
(`GenerateKeyRequest`, litellm.proxy._types, not under src/) that the
upperbound enforcement of /key/generate can touch: exactly the fields the
upperbound record carries, every field optional (`none` = left unset by the
caller). -/
structure GenerateKeyBoundedFields where
  max_budget : Option Int := none
  max_parallel_requests : Option Int := none
  tpm_limit : Option Int := none
  rpm_limit : Option Int := none
  budget_duration : Option String := none
  duration : Option String := none
deriving DecidableEq, Repr

/-- One numeric step of the upperbound loop of /key/generate
(key_management_endpoints.py lines 147-168): no configured ceiling leaves
the value alone; an unset caller value adopts the ceiling; a caller value
over the ceiling raises a 400 HTTPException; a value at or below the
ceiling is kept. -/
def upperbound_numeric_step (name : String) (upperbound_value : Option Int)
    (value : Option Int) : Except HTTPErr (Option Int) :=
  match upperbound_value with
  | none => .ok value
  | some u =>
    match value with
    | none => .ok (some u)
    | some v =>
      if v > u then
        .error ⟨400, name ++ " is over max limit set in config - " ++
          "user_value=" ++ toString v ++ "; max_value=" ++ toString u⟩
      else .ok (some v)

/-- One duration step of the upperbound loop of /key/generate
(key_management_endpoints.py lines 169-181): both durations are normalized
to seconds before comparison; a caller duration whose seconds exceed the
ceiling seconds raises a 400 HTTPException; a malformed duration makes the
normalizer raise (embedded as a 400-class failure of the request). -/
def upperbound_duration_step (name : String)
    (upperbound_value : Option String) (value : Option String) :
    Except HTTPErr (Option String) :=
  match upperbound_value with
  | none => .ok value
  | some u =>
    match value with
    | none => .ok (some u)
    | some v =>
      match duration_in_seconds u, duration_in_seconds v with
      | some us, some vs =>
        if vs > us then
          .error ⟨400, name ++ " is over max limit set in config - " ++
            "user_value=" ++ v ++ "; max_value=" ++ u⟩
        else .ok (some v)
      | _, _ => .error ⟨400, name ++ " invalid duration string"⟩

/-- key_management_endpoints.py lines 144-181: the upperbound enforcement
loop of /key/generate.  For every field present in the configured
upperbound record: adopt the ceiling when the caller left the field unset;
reject with a 400 when a caller numeric value exceeds the ceiling or a
caller duration exceeds the ceiling in normalized seconds; keep a caller
value at or below the ceiling unchanged. -/
def apply_upperbound_key_generate_params
    (ub : UpperboundKeyGenerateParams) (data : GenerateKeyBoundedFields) :
    Except HTTPErr GenerateKeyBoundedFields := do
  let max_budget ← upperbound_numeric_step "max_budget" ub.max_budget
    data.max_budget
  let max_parallel_requests ← upperbound_numeric_step
    "max_parallel_requests" ub.max_parallel_requests
    data.max_parallel_requests
  let tpm_limit ← upperbound_numeric_step "tpm_limit" ub.tpm_limit
    data.tpm_limit
  let rpm_limit ← upperbound_numeric_step "rpm_limit" ub.rpm_limit
    data.rpm_limit
  let budget_duration ← upperbound_duration_step "budget_duration"
    ub.budget_duration data.budget_duration
  let duration ← upperbound_duration_step "duration" ub.duration
    data.duration
  pure { max_budget := max_budget,
         max_parallel_requests := max_parallel_requests,
         tpm_limit := tpm_limit,
         rpm_limit := rpm_limit,
         budget_duration := budget_duration,
         duration := duration }

/-- The metadata-bearing fields excluded from the main sparse-patch loop of
`prepare_key_update_data` (key_management_endpoints.py line 311). -/
def _metadata_fields : List String :=
  ["model_rpm_limit", "model_tpm_limit", "guardrails"]

/-- The keep-or-drop decision of the main loop of `prepare_key_update_data`
(key_management_endpoints.py lines 313-320) for a non-metadata field: a
`None` is dropped, a bare non-boolean falsy value is dropped as a no-op,
anything else is kept. -/
def keep_in_patch : JVal → Bool
  | .jnull => false
  | v => !v.bare_falsy

/-- key_management_endpoints.py lines 312-320: the main sparse-patch loop of
`prepare_key_update_data`: walk the exclude-unset request dict, skip the
three metadata-bearing fields, and keep every other binding that passes
`keep_in_patch`. -/
def key_update_main_loop (data_json : Dict) : Dict :=
  data_json.foldl (fun acc p =>
    if _metadata_fields.contains p.1 then acc
    else if keep_in_patch p.2 then dictSet acc p.1 p.2
    else acc) []

/-- key_management_endpoints.py lines 322-327: pop a present `duration` from
the patch and, when it is a truthy string, convert it through the duration
normalizer into an absolute `expires` timestamp. -/
def key_update_duration_stage (now : Int) (ndv : Dict) :
    Except String Dict :=
  match dictLookup ndv "duration" with
  | none => .ok ndv
  | some dv =>
    let ndv2 := dictRemove ndv "duration"
    match dv with
    | .jstr s =>
      if s == "" then .ok ndv2
      else
        match duration_in_seconds s with
        | none => .error "invalid duration string"
        | some ds => .ok (dictSet ndv2 "expires" (.jnum (now + ds)))
    | _ => .ok ndv2

/-- key_management_endpoints.py lines 329-334: when `budget_duration` is in
the patch, convert it through the duration normalizer into an absolute
`budget_reset_at` timestamp (the `budget_duration` binding itself stays). -/
def key_update_budget_duration_stage (now : Int) (ndv : Dict) :
    Except String Dict :=
  match dictLookup ndv "budget_duration" with
  | none => .ok ndv
  | some bv =>
    match bv with
    | .jstr s =>
      match duration_in_seconds s with
      | none => .error "invalid duration string"
      | some ds => .ok (dictSet ndv "budget_reset_at" (.jnum (now + ds)))
    | _ => .error "budget_duration is not a string"

/-- Reads a metadata submap that the source is about to `.update`: absent
counts as empty, a non-dict value makes Python raise. -/
def read_submap (md : Dict) (k : String) : Except String Dict :=
  match dictLookup md k with
  | none => .ok []
  | some (.jdict d) => .ok d
  | some _ => .error ("metadata field " ++ k ++ " is not a dict")

/-- key_management_endpoints.py lines 338-348: when the named limit field
(`model_tpm_limit` or `model_rpm_limit`) was supplied truthy, deep-merge it
into the same-named nested submap of the working metadata and write the
merged metadata into the patch under `metadata`; otherwise leave both
untouched.  The source spells this block out once per field; it is
parameterized by the field name here. -/
def merge_limit_field (field : String) (data_json0 : Dict) (ndv md : Dict) :
    Except String (Dict × Dict) :=
  match dictGetAttr data_json0 field with
  | .jdict m =>
    if (JVal.jdict m).truthy then
      match read_submap md field with
      | .error e => .error e
      | .ok cur =>
        let md2 := dictSet md field (.jdict (dictUpdate cur m))
        .ok (dictSet ndv "metadata" (.jdict md2), md2)
    else .ok (ndv, md)
  | v =>
    if v.truthy then .error (field ++ " is not a dict")
    else .ok (ndv, md)

/-- key_management_endpoints.py lines 350-352: when `guardrails` was
supplied truthy, store it into the working metadata outright (replacing any
existing `guardrails` entry) and write the metadata into the patch. -/
def merge_guardrails_field (data_json0 : Dict) (ndv md : Dict) :
    Dict × Dict :=
  let v := dictGetAttr data_json0 "guardrails"
  if v.truthy then
    let md2 := dictSet md "guardrails" v
    (dictSet ndv "metadata" (.jdict md2), md2)
  else (ndv, md)

/-- key_management_endpoints.py lines 306-354: `prepare_key_update_data`,
shared by /key/update and /key/regenerate.  Starts from the exclude-unset
dict of the request with the `key` field popped; keeps only explicitly-set
fields that are neither `None` nor bare non-boolean falsy values, skipping
the three metadata-bearing fields; converts a truthy string `duration`
(popping it) into an absolute `expires` and a present `budget_duration`
into an absolute `budget_reset_at`; then merges a truthy `model_tpm_limit`
and `model_rpm_limit` into the nested submaps of the same name of the
existing row metadata, and stores a truthy `guardrails` value into the
metadata outright, writing the merged metadata back into the patch.
`now` is the current time in epoch seconds; timestamps are embedded as
numbers. -/
def prepare_key_update_data (now : Int) (data_json0 : Dict)
    (existing_metadata : Option Dict) : Except String Dict := do
  let data_json := dictRemove data_json0 "key"
  let non_default_values := key_update_main_loop data_json
  let non_default_values ← key_update_duration_stage now non_default_values
  let non_default_values ←
    key_update_budget_duration_stage now non_default_values
  let md := existing_metadata.getD []
  let (non_default_values, md) ←
    merge_limit_field "model_tpm_limit" data_json0 non_default_values md
  let (non_default_values, md) ←
    merge_limit_field "model_rpm_limit" data_json0 non_default_values md
  let (non_default_values, _md) :=
    merge_guardrails_field data_json0 non_default_values md
  pure non_default_values

/-! ## Association-list lemmas -/

theorem dictLookup_nil (k : String) : dictLookup [] k = none := rfl

theorem dictLookup_cons (p : String × JVal) (l : Dict) (k : String) :
    dictLookup (p :: l) k =
      if p.1 == k then some p.2 else dictLookup l k := by
  by_cases h : p.1 = k
  · simp [dictLookup, List.find?, h]
  · have hb : (p.1 == k) = false := beq_eq_false_iff_ne.mpr h
    simp [dictLookup, List.find?, hb, h]

theorem dictLookup_dictSet_self (d : Dict) (k : String) (v : JVal) :
    dictLookup (dictSet d k v) k = some v := by
  induction d with
  | nil => simp [dictSet, dictLookup_cons]
  | cons p rest ih =>
    by_cases h : p.1 = k
    · simp [dictSet, h, dictLookup_cons]
    · simp [dictSet, h, dictLookup_cons, ih]

theorem dictLookup_dictSet_other (d : Dict) (k k' : String) (v : JVal)
    (hne : k' ≠ k) :
    dictLookup (dictSet d k v) k' = dictLookup d k' := by
  induction d with
  | nil => simp [dictSet, dictLookup_cons, dictLookup_nil, Ne.symm hne]
  | cons p rest ih =>
    by_cases h : p.1 = k
    · simp [dictSet, h, dictLookup_cons, Ne.symm hne]
    · simp [dictSet, h, dictLookup_cons, ih]

theorem log_input_event_fst (cb : Dict → Except String Unit)
    (model messages : JVal) (kwargs : Dict) :
    (log_input_event cb model messages kwargs).1 =
      dictSet (dictSet (dictSet kwargs "model" model) "messages" messages)
        "log_event_type" (.jstr "pre_api_call") := by
  unfold log_input_event
  dsimp only
  split <;> rfl

theorem async_log_input_event_fst (cb : Dict → Except String Unit)
    (model messages : JVal) (kwargs : Dict) :
    (async_log_input_event cb model messages kwargs).1 =
      dictSet (dictSet (dictSet kwargs "model" model) "messages" messages)
        "log_event_type" (.jstr "pre_api_call") := by
  unfold async_log_input_event
  dsimp only
  split <;> rfl

theorem log_event_fst (cb : Dict → JVal → Int → Int → Except String Unit)
    (kwargs : Dict) (resp : JVal) (st et : Int) :
    (log_event cb kwargs resp st et).1 =
      (dictSet kwargs "log_event_type" (.jstr "post_api_call"),
        resp, st, et) := by
  unfold log_event
  dsimp only
  split <;> rfl

theorem async_log_event_fst
    (cb : Dict → JVal → Int → Int → Except String Unit)
    (kwargs : Dict) (resp : JVal) (st et : Int) :
    (async_log_event cb kwargs resp st et).1 =
      (dictSet kwargs "log_event_type" (.jstr "post_api_call"),
        resp, st, et) := by
  unfold async_log_event
  dsimp only
  split <;> rfl

theorem pre_api_call_record_fields (model messages : JVal) (kwargs : Dict) :
    dictLookup (dictSet (dictSet (dictSet kwargs "model" model) "messages"
        messages) "log_event_type" (.jstr "pre_api_call")) "model" =
      some model ∧
    dictLookup (dictSet (dictSet (dictSet kwargs "model" model) "messages"
        messages) "log_event_type" (.jstr "pre_api_call")) "messages" =
      some messages ∧
    dictLookup (dictSet (dictSet (dictSet kwargs "model" model) "messages"
        messages) "log_event_type" (.jstr "pre_api_call"))
        "log_event_type" = some (.jstr "pre_api_call") := by
  refine ⟨?_, ?_, ?_⟩
  · rw [dictLookup_dictSet_other _ _ _ _ (by decide),
      dictLookup_dictSet_other _ _ _ _ (by decide), dictLookup_dictSet_self]
  · rw [dictLookup_dictSet_other _ _ _ _ (by decide),
      dictLookup_dictSet_self]
  · rw [dictLookup_dictSet_self]

/-- C7: the wrappers `log_input_event` / `async_log_input_event` hand the
caller-supplied callback a call record carrying the model, the messages and
the event tag `pre_api_call`; `log_event` / `async_log_event` hand it the
record tagged `post_api_call` together with the response object and the two
timestamps as positional arguments; and in all four wrappers an exception
raised by the callback is swallowed and logged, never propagated (the
wrapper still returns, recording the error it logged). -/
theorem C7_callback_wrappers (cb : Dict → Except String Unit)
    (cbe : Dict → JVal → Int → Int → Except String Unit)
    (model messages : JVal) (kwargs : Dict) (resp : JVal) (st et : Int)
    (err : String) :
    (dictLookup (log_input_event cb model messages kwargs).1 "model" =
        some model ∧
      dictLookup (log_input_event cb model messages kwargs).1 "messages" =
        some messages ∧
      dictLookup (log_input_event cb model messages kwargs).1
          "log_event_type" = some (.jstr "pre_api_call")) ∧
    (dictLookup (async_log_input_event cb model messages kwargs).1 "model" =
        some model ∧
      dictLookup (async_log_input_event cb model messages kwargs).1
          "messages" = some messages ∧
      dictLookup (async_log_input_event cb model messages kwargs).1
          "log_event_type" = some (.jstr "pre_api_call")) ∧
    (dictLookup (log_event cbe kwargs resp st et).1.1 "log_event_type" =
        some (.jstr "post_api_call") ∧
      (log_event cbe kwargs resp st et).1.2.1 = resp ∧
      (log_event cbe kwargs resp st et).1.2.2.1 = st ∧
      (log_event cbe kwargs resp st et).1.2.2.2 = et) ∧
    (dictLookup (async_log_event cbe kwargs resp st et).1.1
        "log_event_type" = some (.jstr "post_api_call") ∧
      (async_log_event cbe kwargs resp st et).1.2.1 = resp ∧
      (async_log_event cbe kwargs resp st et).1.2.2.1 = st ∧
      (async_log_event cbe kwargs resp st et).1.2.2.2 = et) ∧
    ((log_input_event (fun _ => .error err) model messages kwargs).2 =
        some err ∧
      (async_log_input_event (fun _ => .error err) model messages
          kwargs).2 = some err ∧
      (log_event (fun _ _ _ _ => .error err) kwargs resp st et).2 =
        some err ∧
      (async_log_event (fun _ _ _ _ => .error err) kwargs resp st et).2 =
        some err) := by
  refine ⟨?_, ?_, ?_, ?_, ?_, ?_, ?_, ?_⟩
  · rw [log_input_event_fst]
    exact pre_api_call_record_fields model messages kwargs
  · rw [async_log_input_event_fst]
    exact pre_api_call_record_fields model messages kwargs
  · rw [log_event_fst]
    exact ⟨dictLookup_dictSet_self _ _ _, rfl, rfl, rfl⟩
  · rw [async_log_event_fst]
    exact ⟨dictLookup_dictSet_self _ _ _, rfl, rfl, rfl⟩
  · rfl
  · rfl
  · rfl
  · rfl

/-- The roster predicate of the /team/list member filter. -/
def roster_entry_matches (uid : String) (m : Member) : Bool :=
  m.user_id.isSome && m.user_id == some uid

theorem list_team_inner_fold (team : LiteLLM_TeamTable) (uid : String)
    (ms : List Member) (acc : List LiteLLM_TeamTable) :
    ms.foldl (fun acc2 m =>
        if m.user_id.isSome && m.user_id == some uid then acc2 ++ [team]
        else acc2) acc =
      acc ++ List.replicate (ms.countP (roster_entry_matches uid)) team := by
  induction ms generalizing acc with
  | nil => simp
  | cons m rest ih =>
    simp only [List.foldl_cons]
    by_cases h : (m.user_id.isSome && m.user_id == some uid) = true
    · rw [if_pos h, ih, List.countP_cons]
      have hp : roster_entry_matches uid m = true := h
      simp [hp, List.replicate_succ]
    · rw [if_neg h, ih, List.countP_cons]
      have hp : roster_entry_matches uid m = false := by
        unfold roster_entry_matches
        exact Bool.not_eq_true _ ▸ eq_false_of_ne_true h
      simp [hp]

theorem list_team_filter_fold (uid : String)
    (teams : List LiteLLM_TeamTable) (acc : List LiteLLM_TeamTable) :
    teams.foldl (fun acc team =>
        if team.members_with_roles.isEmpty then acc
        else
          team.members_with_roles.foldl (fun acc2 m =>
            if m.user_id.isSome && m.user_id == some uid then acc2 ++ [team]
            else acc2) acc) acc =
      acc ++ teams.flatMap (fun t =>
        List.replicate (t.members_with_roles.countP
          (roster_entry_matches uid)) t) := by
  induction teams generalizing acc with
  | nil => simp
  | cons t rest ih =>
    simp only [List.foldl_cons]
    by_cases h : t.members_with_roles.isEmpty = true
    · have hmem : t.members_with_roles = [] := List.isEmpty_iff.mp h
      rw [if_pos h, ih, List.flatMap_cons, hmem]
      simp
    · rw [if_neg h, list_team_inner_fold, ih, List.flatMap_cons,
        List.append_assoc]

/-- C10: in GET /team/list with a user_id filter, every team is appended to
the filtered result once per roster entry whose non-null user id matches
the filter, so a team whose roster lists the same user id twice occurs
twice in the result. -/
theorem C10_list_team_duplicates (teams : List LiteLLM_TeamTable)
    (uid : String) (hne : uid ≠ "") :
    list_team.list_team_filter teams (some uid) =
      teams.flatMap (fun t =>
        List.replicate (t.members_with_roles.countP
          (roster_entry_matches uid)) t) := by
  unfold list_team.list_team_filter
  have hbeq : (uid == "") = false := beq_eq_false_iff_ne.mpr hne
  simp only [hbeq, if_false]
  simpa using list_team_filter_fold uid teams []

/-- Witness for C10: a team whose roster carries the user id `u` in two
entries is returned twice by the filter. -/
theorem C10_list_team_duplicates_witness :
    ("u" : String) ≠ "" ∧
      list_team.list_team_filter
        [⟨some "t1", [⟨"admin", some "u", none⟩, ⟨"user", some "u", none⟩]⟩]
        (some "u") =
      [⟨some "t1", [⟨"admin", some "u", none⟩, ⟨"user", some "u", none⟩]⟩,
        ⟨some "t1",
          [⟨"admin", some "u", none⟩, ⟨"user", some "u", none⟩]⟩] := by
  refine ⟨by decide, ?_⟩
  rw [C10_list_team_duplicates _ _ (by decide)]
  rfl

/-- C9: a caller who is neither a full proxy admin nor a view-only proxy
admin and whose user id is non-null is rejected with a 401 by GET /team/list
when no user_id query parameter is passed (the absent parameter differs
from the caller user id), and gets past the gate exactly when the passed
user_id equals their own. -/
theorem C9_list_team_non_admin_gate (auth : UserAPIKeyAuth) (u : String)
    (teams : List LiteLLM_TeamTable)
    (h1 : auth.user_role ≠ some PROXY_ADMIN)
    (h2 : auth.user_role ≠ some PROXY_ADMIN_VIEW_ONLY)
    (hu : auth.user_id = some u) :
    (∃ e, list_team auth none teams = .error e ∧ e.status = 401) ∧
    (∀ v, (∃ r, list_team auth (some v) teams = .ok r) ↔ v = u) := by
  have hb1 : (auth.user_role == some PROXY_ADMIN) = false :=
    beq_eq_false_iff_ne.mpr h1
  have hb2 : (auth.user_role == some PROXY_ADMIN_VIEW_ONLY) = false :=
    beq_eq_false_iff_ne.mpr h2
  refine ⟨?_, ?_⟩
  · refine ⟨⟨401, "Only admin users can query all teams/other teams"⟩,
      ?_, rfl⟩
    unfold list_team
    rw [hb1, hb2, hu]
    rfl
  · intro v
    constructor
    · rintro ⟨r, hr⟩
      unfold list_team at hr
      rw [hb1, hb2, hu] at hr
      by_cases hv : u = v
      · exact hv.symm
      · have hbv : ((some u : Option String) == some v) = false := by
          simp [hv]
        rw [hbv] at hr
        simp at hr
    · rintro rfl
      refine ⟨list_team.list_team_filter teams (some v), ?_⟩
      unfold list_team
      rw [hb1, hb2, hu]
      simp

/-- Witness for C9: a plain internal user with user id u9 is rejected
without a user_id parameter and admitted exactly for user_id=u9. -/
theorem C9_list_team_non_admin_gate_witness :
    ((⟨some "k", some "u9", some "internal_user", none⟩ :
        UserAPIKeyAuth).user_role ≠ some PROXY_ADMIN) ∧
    ((⟨some "k", some "u9", some "internal_user", none⟩ :
        UserAPIKeyAuth).user_role ≠ some PROXY_ADMIN_VIEW_ONLY) ∧
    ((⟨some "k", some "u9", some "internal_user", none⟩ :
        UserAPIKeyAuth).user_id = some "u9") ∧
    ((∃ e, list_team ⟨some "k", some "u9", some "internal_user", none⟩
        none [] = .error e ∧ e.status = 401) ∧
      (∀ v, (∃ r, list_team ⟨some "k", some "u9", some "internal_user",
        none⟩ (some v) [] = .ok r) ↔ v = "u9")) :=
  ⟨by decide, by decide, rfl,
    C9_list_team_non_admin_gate _ "u9" [] (by decide) (by decide) rfl⟩

/-- The Python `s.startswith(pat)`. -/
def str_begins (s pat : String) : Bool :=
  chars_start_with s.toList pat.toList

/-- C6 counterexample: the claim says the plain token returned for every
valid key-generation request begins with `sk-`, but a caller-supplied
custom `key` value (documented on /key/generate) is adopted verbatim as the
token, so a request carrying key=my-custom-key receives a token without the
`sk-` prefix. -/
theorem C6_counterexample :
    (generate_key_helper_fn false none (some "my-custom-key")
      "RANDOMTOK").token = "my-custom-key" ∧
    str_begins (generate_key_helper_fn false none (some "my-custom-key")
      "RANDOMTOK").token "sk-" = false := by
  exact ⟨rfl, rfl⟩

/-- C6 amended: for every key-generation request in which the caller
supplies neither a token nor a custom key value, the minted plain token is
`sk-` plus the random suffix and thus begins with `sk-`. -/
theorem C6_amended_token_has_sk (disable_key_name : Bool) (rand : String) :
    (generate_key_helper_fn disable_key_name none none rand).token =
      "sk-" ++ rand ∧
    str_begins (generate_key_helper_fn disable_key_name none none
      rand).token "sk-" = true := by
  refine ⟨rfl, ?_⟩
  show str_begins ("sk-" ++ rand) "sk-" = true
  have h : ("sk-" ++ rand).toList = 's' :: 'k' :: '-' :: rand.toList := rfl
  unfold str_begins
  rw [h]
  simp [chars_start_with]

theorem is_user_team_admin_iff (auth : UserAPIKeyAuth)
    (team : LiteLLM_TeamTable) :
    _is_user_team_admin auth team = true ↔
      ∃ m ∈ team.members_with_roles,
        ∃ u, m.user_id = some u ∧ auth.user_id = some u := by
  unfold _is_user_team_admin
  rw [List.any_eq_true]
  constructor
  · rintro ⟨m, hm, hcond⟩
    refine ⟨m, hm, ?_⟩
    rcases hmu : m.user_id with _ | u
    · rw [hmu] at hcond
      simp at hcond
    · rw [hmu] at hcond
      simp only [Option.isSome_some, Bool.true_and] at hcond
      exact ⟨u, rfl, (beq_iff_eq.mp hcond).symm⟩
  · rintro ⟨m, hm, u, hmu, hau⟩
    exact ⟨m, hm, by rw [hmu, hau]; simp⟩

/-- The authorization condition under which the three member endpoints
proceed, as a proposition: full proxy admin, or present in the roster with
a matching non-null user id (with no constraint on the roster role). -/
def team_admin_gate_passes (auth : UserAPIKeyAuth)
    (team : LiteLLM_TeamTable) : Prop :=
  auth.user_role = some PROXY_ADMIN ∨
    ∃ m ∈ team.members_with_roles,
      ∃ u, m.user_id = some u ∧ auth.user_id = some u

theorem team_gate_bool_iff (auth : UserAPIKeyAuth)
    (team : LiteLLM_TeamTable) :
    ((!(auth.user_role == some PROXY_ADMIN) &&
        !(_is_user_team_admin auth team)) = false) ↔
      team_admin_gate_passes auth team := by
  rw [Bool.and_eq_false_iff]
  unfold team_admin_gate_passes
  rw [← is_user_team_admin_iff]
  constructor
  · rintro (h | h)
    · left
      have : (auth.user_role == some PROXY_ADMIN) = true := by
        rcases Bool.not_eq_false' .. |>.symm ▸ h with h2
        simpa using h
      exact beq_iff_eq.mp this
    · right
      simpa using h
  · rintro (h | h)
    · left
      simp [h]
    · right
      simp [h]

/-- C1 counterexample: a caller who is not a proxy admin and appears in the
team roster only with role `user` (so the claim says 403) nevertheless gets
past the authorization check of /team/member_add, /team/member_update and
/team/member_delete, and the member_delete mutation proceeds: the source
check `_is_user_team_admin` tests roster presence only, never the role. -/
theorem C1_counterexample :
    claim_team_admin
        ⟨some "k", some "u1", some "internal_user", none⟩
        ⟨some "t1", [⟨"user", some "u1", none⟩,
          ⟨"user", some "u2", none⟩]⟩ = false ∧
    (⟨some "k", some "u1", some "internal_user", none⟩ :
        UserAPIKeyAuth).user_role ≠ some PROXY_ADMIN ∧
    team_member_add_auth
        ⟨some "t1", some [⟨"user", some "u3", none⟩]⟩
        ⟨some "k", some "u1", some "internal_user", none⟩
        [⟨some "t1", [⟨"user", some "u1", none⟩,
          ⟨"user", some "u2", none⟩]⟩] =
      .ok ⟨some "t1", [⟨"user", some "u1", none⟩,
        ⟨"user", some "u2", none⟩]⟩ ∧
    team_member_update_auth
        ⟨some "t1", some "u2", none⟩
        ⟨some "k", some "u1", some "internal_user", none⟩
        [⟨some "t1", [⟨"user", some "u1", none⟩,
          ⟨"user", some "u2", none⟩]⟩] =
      .ok ⟨some "t1", [⟨"user", some "u1", none⟩,
        ⟨"user", some "u2", none⟩]⟩ ∧
    team_member_delete
        ⟨some "t1", some "u2", none⟩
        ⟨some "k", some "u1", some "internal_user", none⟩
        [⟨some "t1", [⟨"user", some "u1", none⟩,
          ⟨"user", some "u2", none⟩]⟩]
        [⟨some "u2", none, ["t1"]⟩] =
      .ok (⟨some "t1", [⟨"user", some "u1", none⟩]⟩,
        [⟨some "t1", [⟨"user", some "u1", none⟩]⟩],
        [⟨some "u2", none, []⟩]) := by
  refine ⟨by decide, by decide, rfl, rfl, rfl⟩

/-- C1 amended: for /team/member_add, /team/member_update and
/team/member_delete on an existing team, a caller who is not a full proxy
admin proceeds past the authorization check if and only if they appear in
the team roster with a matching non-null user id, with no constraint on
that roster entry role; every other caller is rejected with a 403 before
any mutation. -/
theorem C1_amended_presence_only_gate (auth : UserAPIKeyAuth)
    (tid : String) (ms : List Member) (del_uid : String)
    (teams : List LiteLLM_TeamTable) (users : List UserTable)
    (team : LiteLLM_TeamTable)
    (hfind : teams.find? (fun t => t.team_id == some tid) = some team) :
    (team_member_add_auth ⟨some tid, some ms⟩ auth teams = .ok team ↔
      team_admin_gate_passes auth team) ∧
    (team_member_update_auth ⟨some tid, some del_uid, none⟩ auth teams =
        .ok team ↔ team_admin_gate_passes auth team) ∧
    ((∃ r, team_member_delete ⟨some tid, some del_uid, none⟩ auth teams
        users = .ok r) ↔ team_admin_gate_passes auth team) ∧
    (¬team_admin_gate_passes auth team →
      (∃ e, team_member_add_auth ⟨some tid, some ms⟩ auth teams =
          .error e ∧ e.status = 403) ∧
      (∃ e, team_member_update_auth ⟨some tid, some del_uid, none⟩ auth
          teams = .error e ∧ e.status = 403) ∧
      (∃ e, team_member_delete ⟨some tid, some del_uid, none⟩ auth teams
          users = .error e ∧ e.status = 403)) := by
  have hiff := team_gate_bool_iff auth team
  have hadd : team_member_add_auth ⟨some tid, some ms⟩ auth teams =
      if (!(auth.user_role == some PROXY_ADMIN) &&
          !(_is_user_team_admin auth team)) = true then
        .error ⟨403,
          "Call not allowed. User not proxy admin OR team admin. " ++
            "route=/team/member_add"⟩
      else .ok team := by
    unfold team_member_add_auth
    dsimp only
    rw [hfind]
  have hupd : team_member_update_auth ⟨some tid, some del_uid, none⟩ auth
      teams =
      if (!(auth.user_role == some PROXY_ADMIN) &&
          !(_is_user_team_admin auth team)) = true then
        .error ⟨403,
          "Call not allowed. User not proxy admin OR team admin. " ++
            "route=/team/member_delete"⟩
      else .ok team := by
    unfold team_member_update_auth
    dsimp only
    rw [hfind]
    simp
  rcases Bool.eq_false_or_eq_true (!(auth.user_role == some PROXY_ADMIN) &&
      !(_is_user_team_admin auth team)) with hg | hg
  · have hnp : ¬team_admin_gate_passes auth team := by
      intro hp
      rw [hiff.mpr hp] at hg
      exact Bool.false_ne_true hg
    have hdel : team_member_delete ⟨some tid, some del_uid, none⟩ auth
        teams users = .error ⟨403,
          "Call not allowed. User not proxy admin OR team admin. " ++
            "route=/team/member_delete"⟩ := by
      unfold team_member_delete
      dsimp only
      rw [hfind]
      simp only [Option.isNone_some, Option.isNone_none, Bool.false_and]
      rw [if_neg (by simp)]
      rw [if_pos hg]
    refine ⟨?_, ?_, ?_, ?_⟩
    · rw [hadd, if_pos hg]
      simp [hnp]
    · rw [hupd, if_pos hg]
      simp [hnp]
    · rw [hdel]
      simp [hnp]
    · intro _
      exact ⟨⟨_, by rw [hadd, if_pos hg], rfl⟩,
        ⟨_, by rw [hupd, if_pos hg], rfl⟩,
        ⟨_, by rw [hdel], rfl⟩⟩
  · have hp : team_admin_gate_passes auth team := hiff.mp hg
    have hdel : ∃ r, team_member_delete ⟨some tid, some del_uid, none⟩
        auth teams users = .ok r := by
      unfold team_member_delete
      dsimp only
      rw [hfind]
      simp only [Option.isNone_some, Option.isNone_none, Bool.false_and]
      rw [if_neg (by simp), if_neg (by simp [hg])]
      exact ⟨_, rfl⟩
    refine ⟨?_, ?_, ?_, ?_⟩
    · rw [hadd, if_neg (by simp [hg])]
      simp [hp]
    · rw [hupd, if_neg (by simp [hg])]
      simp [hp]
    · simp [hdel, hp]
    · intro hnp
      exact absurd hp hnp

/-- Witness for the amended C1: a caller with no proxy role who appears in
the roster with role user passes the gate of all three endpoints. -/
theorem C1_amended_presence_only_gate_witness :
    (([⟨some "t1", [⟨"user", some "a", none⟩]⟩] :
        List LiteLLM_TeamTable).find? (fun t => t.team_id == some "t1") =
      some ⟨some "t1", [⟨"user", some "a", none⟩]⟩) ∧
    ((team_member_add_auth ⟨some "t1", some []⟩
        ⟨none, some "a", none, none⟩
        [⟨some "t1", [⟨"user", some "a", none⟩]⟩] =
        .ok ⟨some "t1", [⟨"user", some "a", none⟩]⟩ ↔
      team_admin_gate_passes ⟨none, some "a", none, none⟩
        ⟨some "t1", [⟨"user", some "a", none⟩]⟩) ∧
    (team_member_update_auth ⟨some "t1", some "a", none⟩
        ⟨none, some "a", none, none⟩
        [⟨some "t1", [⟨"user", some "a", none⟩]⟩] =
        .ok ⟨some "t1", [⟨"user", some "a", none⟩]⟩ ↔
      team_admin_gate_passes ⟨none, some "a", none, none⟩
        ⟨some "t1", [⟨"user", some "a", none⟩]⟩) ∧
    ((∃ r, team_member_delete ⟨some "t1", some "a", none⟩
        ⟨none, some "a", none, none⟩
        [⟨some "t1", [⟨"user", some "a", none⟩]⟩] [] = .ok r) ↔
      team_admin_gate_passes ⟨none, some "a", none, none⟩
        ⟨some "t1", [⟨"user", some "a", none⟩]⟩) ∧
    (¬team_admin_gate_passes ⟨none, some "a", none, none⟩
        ⟨some "t1", [⟨"user", some "a", none⟩]⟩ →
      (∃ e, team_member_add_auth ⟨some "t1", some []⟩
          ⟨none, some "a", none, none⟩
          [⟨some "t1", [⟨"user", some "a", none⟩]⟩] =
          .error e ∧ e.status = 403) ∧
      (∃ e, team_member_update_auth ⟨some "t1", some "a", none⟩
          ⟨none, some "a", none, none⟩
          [⟨some "t1", [⟨"user", some "a", none⟩]⟩] =
          .error e ∧ e.status = 403) ∧
      (∃ e, team_member_delete ⟨some "t1", some "a", none⟩
          ⟨none, some "a", none, none⟩
          [⟨some "t1", [⟨"user", some "a", none⟩]⟩] [] =
          .error e ∧ e.status = 403))) :=
  ⟨rfl, C1_amended_presence_only_gate ⟨none, some "a", none, none⟩ "t1" []
    "a" [⟨some "t1", [⟨"user", some "a", none⟩]⟩] []
    ⟨some "t1", [⟨"user", some "a", none⟩]⟩ rfl⟩

/-- A concrete stand-in for the external `hash_token` used to evaluate the
regenerate flow at the failing input: a one-way marker prefix (like the real
sha256 hex digest, its output never contains the substring sk and never
equals its input). -/
def hash_token_sample (s : String) : String := "h" ++ s

/-- C4 at its failing input: a premium caller regenerates a key passed in
already-hashed form (token 0a1b, no sk substring, so it is used as the
where-key directly).  The database update is keyed by the old hash and the
row identity (row_uid 7) is preserved, and the response carries the fresh
plain token sk-WXYZ; but both cache evictions delete the entry at
hash_token(0a1b) = h0a1b instead of 0a1b, so the cache entry for the old
hashed key survives and a subsequent lookup by the old value still hits —
the source passes hash_token(key) where its own guard names
hashed_api_key. -/
theorem C4_regenerate_stale_cache_eval :
    regenerate_key_fn hash_token_sample "WXYZ" true "0a1b" []
      [⟨7, "0a1b", none, []⟩] ["0a1b"] =
      .ok (⟨7, "sk-WXYZ", some "sk-...WXYZ", []⟩,
        [⟨7, "hsk-WXYZ", some "sk-...WXYZ", []⟩], ["0a1b"]) ∧
    (["0a1b"] : List String).contains "0a1b" = true := by
  exact ⟨rfl, rfl⟩

/-- C2 counterexample: a non-admin caller (alice) asks to delete two keys
of which she owns one.  The scoped deletion deletes one of two, and the
operation fails inside `delete_verification_token` with the message naming
the user — a 400 whose message does not state the requested count (2) or
the deleted count (1), contrary to the claim that a count mismatch always
reports both counts. -/
theorem C2_counterexample :
    ∃ e : ProxyErr,
      delete_key_fn (fun s => s) false "default_user_id"
        ⟨some "k", some "alice", some "internal_user", none⟩
        ["k1", "k3"]
        [⟨"k1", some "alice"⟩, ⟨"k3", some "bob"⟩] [] = .error e ∧
      e.code = 400 ∧
      str_has_sub e.message "2" = false ∧
      str_has_sub e.message "Keys passed in" = false := by
  refine ⟨_, rfl, rfl, by decide, by decide⟩

theorem prisma_delete_data_length (db : List KeyRow) (tokens : List String)
    (uf : Option String) :
    db.length = (prisma_delete_data db tokens uf).1.length +
      (prisma_delete_data db tokens uf).2 := by
  unfold prisma_delete_data
  dsimp only
  rw [Nat.add_comm]
  exact List.length_eq_length_filter_add _

theorem delete_verification_token_ok_shape (admin_name : String)
    (db : List KeyRow) (tokens : List String) (user_id : Option String)
    (db2 : List KeyRow) (n : Nat)
    (h : delete_verification_token admin_name db tokens user_id =
      .ok (db2, n)) :
    ∃ uf, (db2, n) = prisma_delete_data db tokens uf := by
  unfold delete_verification_token at h
  split at h
  · refine ⟨none, ?_⟩
    cases h
    rfl
  · dsimp only at h
    split at h
    · exact absurd h (by simp)
    · refine ⟨user_id, ?_⟩
      cases h
      rfl

/-- C2 amended: POST /key/delete rejects an empty key list with a 400-class
proxy exception of type auth_error; whenever the operation succeeds, exactly
as many rows as requested keys were deleted, so a count mismatch never
surfaces as success; and the error message stating both the requested and
the deleted count is raised on the path where the deletion ran unscoped
because the acting user id equals the reserved admin name — a scoped caller
with a mismatch instead fails inside the token-deletion routine with a 400
naming the user and no counts. -/
theorem C2_amended_delete_key_counts (hash_token : String → String)
    (store_audit_logs : Bool) (admin_name : String) (auth : UserAPIKeyAuth)
    (keys : List String) (db : List KeyRow) (cache : List String) :
    (keys = [] →
      delete_key_fn hash_token store_audit_logs admin_name auth keys db
        cache =
        .error ⟨400, AUTH_ERROR, "No keys provided, passed in: keys=[]"⟩) ∧
    (∀ db2 resp cache2,
        delete_key_fn hash_token store_audit_logs admin_name auth keys db
          cache = .ok (db2, resp, cache2) →
        db.length = db2.length + keys.length) ∧
    (auth.user_id = some admin_name → auth.user_role ≠ some PROXY_ADMIN →
      keys ≠ [] → store_audit_logs = false →
      (prisma_delete_data db keys none).2 ≠ keys.length →
      delete_key_fn hash_token store_audit_logs admin_name auth keys db
        cache = .error ⟨400, AUTH_ERROR,
          "Not all keys passed in were deleted. This probably means " ++
            "you dont have access to delete all the keys passed in. " ++
            "Keys passed in=" ++ toString keys.length ++
            ", Deleted keys =" ++
            toString (prisma_delete_data db keys none).2⟩) := by
  refine ⟨?_, ?_, ?_⟩
  · rintro rfl
    rfl
  · intro db2 resp cache2 h
    unfold delete_key_fn at h
    cases hbody : delete_key_fn_body hash_token store_audit_logs admin_name
        auth keys db cache with
    | error e =>
      rw [hbody] at h
      exact absurd h (by simp)
    | ok r =>
      rw [hbody] at h
      have hr : r = (db2, resp, cache2) := by
        cases h
        rfl
      subst hr
      unfold delete_key_fn_body at hbody
      split at hbody
      · exact absurd hbody (by simp)
      · split at hbody
        · exact absurd hbody (by simp)
        · dsimp only at hbody
          cases hdvt : delete_verification_token admin_name db keys
              (delete_acting_user_id auth) with
          | error e =>
            rw [hdvt] at hbody
            exact absurd hbody (by simp)
          | ok p =>
            rw [hdvt] at hbody
            rcases p with ⟨db2x, n⟩
            dsimp only at hbody
            split at hbody
            · exact absurd hbody (by simp)
            · rename_i hcnt
              have hn : keys.length = n := by
                have hf := eq_false_of_ne_true hcnt
                simpa using hf
              cases hbody
              rcases delete_verification_token_ok_shape _ _ _ _ _ _ hdvt
                with ⟨uf, hshape⟩
              have h1 : db2 = (prisma_delete_data db keys uf).1 := by
                rw [← hshape]
              have h2 : n = (prisma_delete_data db keys uf).2 := by
                rw [← hshape]
              rw [h1, hn, h2]
              exact prisma_delete_data_length db keys uf
  · intro hid hrole hne haudit hm
    subst haudit
    have hk : (keys.length == 0) = false := by
      have hz : keys.length ≠ 0 := fun h0 => hne (List.length_eq_zero.mp h0)
      simpa using hz
    have hrb : (auth.user_role.isSome &&
        (auth.user_role == some PROXY_ADMIN)) = false := by
      have hf : (auth.user_role == some PROXY_ADMIN) = false :=
        beq_eq_false_iff_ne.mpr hrole
      simp [hf]
    have huid : delete_acting_user_id auth = some admin_name := by
      unfold delete_acting_user_id
      rw [hrb]
      simpa using hid
    have hdvt : delete_verification_token admin_name db keys
        (some admin_name) = .ok (prisma_delete_data db keys none) := by
      unfold delete_verification_token
      rw [if_pos (by simp)]
    have hcnt : (keys.length == (prisma_delete_data db keys none).2) =
        false := by
      have hx : keys.length ≠ (prisma_delete_data db keys none).2 :=
        fun h => hm h.symm
      simpa using hx
    unfold delete_key_fn delete_key_fn_body
    rw [hk]
    dsimp only
    rw [huid, hdvt]
    dsimp only
    rw [hcnt]
    rfl

/-- Witness for the amended C2: a caller whose user id equals the reserved
admin name requests two deletions of which only one row exists; the
operation fails with the message stating 2 requested and 1 deleted. -/
theorem C2_amended_delete_key_counts_witness :
    ((⟨some "k", some "root", some "internal_user", none⟩ :
        UserAPIKeyAuth).user_id = some "root") ∧
    ((⟨some "k", some "root", some "internal_user", none⟩ :
        UserAPIKeyAuth).user_role ≠ some PROXY_ADMIN) ∧
    ((["a", "b"] : List String) ≠ []) ∧
    ((prisma_delete_data [⟨"a", some "x"⟩] ["a", "b"] none).2 ≠
      (["a", "b"] : List String).length) ∧
    delete_key_fn (fun s => s) false "root"
      ⟨some "k", some "root", some "internal_user", none⟩ ["a", "b"]
      [⟨"a", some "x"⟩] [] = .error ⟨400, AUTH_ERROR,
        "Not all keys passed in were deleted. This probably means " ++
          "you dont have access to delete all the keys passed in. " ++
          "Keys passed in=" ++ toString (["a", "b"] : List String).length ++
          ", Deleted keys =" ++
          toString
            (prisma_delete_data [⟨"a", some "x"⟩] ["a", "b"] none).2⟩ :=
  ⟨rfl, by decide, by decide, by decide,
    (C2_amended_delete_key_counts (fun s => s) false "root"
      ⟨some "k", some "root", some "internal_user", none⟩ ["a", "b"]
      [⟨"a", some "x"⟩] []).2.2 rfl (by decide) (by decide) rfl
      (by decide)⟩

/-- C8 counterexample: with audit logging disabled, a full proxy admin asks
to delete an existing key and a missing one.  The claim says the operation
fails at the endpoint final count check with the error comparing requested
vs deleted counts; instead the scoped-deletion routine raises first (the
acting user id was nulled, which differs from the reserved admin name), so
the 400 carries the message naming the user, with neither the literal `Not
all keys` nor any count in it. -/
theorem C8_counterexample :
    ∃ e : ProxyErr,
      delete_key_fn (fun s => s) false "default_user_id"
        ⟨some "k", some "admin-person", some PROXY_ADMIN, none⟩
        ["k1", "kmissing"] [⟨"k1", some "alice"⟩] [] = .error e ∧
      e.code = 400 ∧
      str_has_sub e.message "Not all keys" = false ∧
      str_has_sub e.message "2" = false := by
  refine ⟨_, rfl, rfl, by decide, by decide⟩

theorem delete_verification_token_error_exn (admin_name : String)
    (db : List KeyRow) (tokens : List String) (user_id : Option String)
    (e : PyErr)
    (h : delete_verification_token admin_name db tokens user_id =
      .error e) :
    ∃ m, e = .exn m := by
  unfold delete_verification_token at h
  split at h
  · exact absurd h (by simp)
  · dsimp only at h
    split at h
    · cases h
      exact ⟨_, rfl⟩
    · exact absurd h (by simp)

/-- C8 amended: with audit logging disabled, POST /key/delete performs no
per-key existence check and never returns a 404 — every failure is a
400-class error (either the endpoint final count check, whose message
compares the counts, or the scoped token-deletion routine failing first);
the 404-per-missing-key behavior exists only in the audit branch, which
rejects with 404 whenever a requested key has no row. -/
theorem C8_amended_audit_gated_404 (hash_token : String → String)
    (admin_name : String) (auth : UserAPIKeyAuth) (keys : List String)
    (db : List KeyRow) (cache : List String) :
    (∀ e, delete_key_fn hash_token false admin_name auth keys db cache =
        .error e → e.code = 400) ∧
    (∀ k, k ∈ keys → (∀ r ∈ db, r.token ≠ k) →
      ∃ e, delete_key_fn hash_token true admin_name auth keys db cache =
        .error e ∧ e.code = 404 ∧ e.etype = BAD_REQUEST_ERROR) := by
  constructor
  · intro e h
    unfold delete_key_fn at h
    cases hbody : delete_key_fn_body hash_token false admin_name auth keys
        db cache with
    | ok r =>
      rw [hbody] at h
      exact absurd h (by simp)
    | error pe =>
      rw [hbody] at h
      have he : e = normalize_proxy_exception pe := by
        cases h
        rfl
      subst he
      unfold delete_key_fn_body at hbody
      split at hbody
      · cases hbody
        rfl
      · rw [show delete_audit_missing_key false keys db = none from rfl]
          at hbody
        dsimp only at hbody
        cases hdvt : delete_verification_token admin_name db keys
            (delete_acting_user_id auth) with
        | error e2 =>
          rw [hdvt] at hbody
          dsimp only at hbody
          have hpe : pe = e2 := by
            cases hbody
            rfl
          subst hpe
          rcases delete_verification_token_error_exn _ _ _ _ _ hdvt
            with ⟨m, hm⟩
          subst hm
          rfl
        | ok p =>
          rw [hdvt] at hbody
          rcases p with ⟨db2x, n⟩
          dsimp only at hbody
          split at hbody
          · have hpe : pe = .http 400
                ("Not all keys passed in were deleted. This probably " ++
                  "means you dont have access to delete all the keys " ++
                  "passed in. Keys passed in=" ++ toString keys.length ++
                  ", Deleted keys =" ++ toString n) := by
              cases hbody
              rfl
            subst hpe
            rfl
          · exact absurd hbody (by simp)
  · intro k hk hmiss
    have hak : (db.find? (fun r => r.token == k)) = none :=
      List.find?_eq_none.mpr (fun r hr => by
        simpa using hmiss r hr)
    cases hfind : keys.find?
        (fun x => (db.find? (fun r => r.token == x)).isNone) with
    | none =>
      exfalso
      have hnone := List.find?_eq_none.mp hfind k hk
      rw [hak] at hnone
      exact hnone rfl
    | some m =>
      refine ⟨⟨404, BAD_REQUEST_ERROR, "Key " ++ m ++ " not found"⟩, ?_,
        rfl, rfl⟩
      have hkne : (keys.length == 0) = false := by
        have hne : keys ≠ [] := by
          rintro rfl
          cases hk
        have hz : keys.length ≠ 0 :=
          fun h0 => hne (List.length_eq_zero.mp h0)
        simpa using hz
      unfold delete_key_fn delete_key_fn_body
      rw [hkne]
      dsimp only
      rw [show delete_audit_missing_key true keys db =
        keys.find? (fun x => (db.find? (fun r => r.token == x)).isNone)
        from rfl]
      rw [hfind]
      rfl

/-- Witness for the amended C8: with audit logging enabled, deleting a key
with no database row is rejected with a 404 bad_request_error. -/
theorem C8_amended_audit_gated_404_witness :
    ("x" ∈ (["x"] : List String)) ∧
    (∀ r ∈ ([] : List KeyRow), r.token ≠ "x") ∧
    (∃ e, delete_key_fn (fun s => s) true "root" ⟨none, none, none, none⟩
      ["x"] [] [] = .error e ∧ e.code = 404 ∧
      e.etype = BAD_REQUEST_ERROR) :=
  ⟨by decide, by simp,
    (C8_amended_audit_gated_404 (fun s => s) "root" ⟨none, none, none, none⟩
      ["x"] [] []).2 "x" (by decide) (by simp)⟩

theorem upperbound_numeric_step_ok (name : String) (ubv v w : Option Int)
    (h : upperbound_numeric_step name ubv v = .ok w) :
    w = v.or ubv := by
  unfold upperbound_numeric_step at h
  cases ubv with
  | none =>
    dsimp only at h
    cases h
    cases v <;> rfl
  | some u =>
    cases v with
    | none =>
      dsimp only at h
      cases h
      rfl
    | some x =>
      dsimp only at h
      split at h
      · exact absurd h (by simp)
      · cases h
        rfl

theorem upperbound_numeric_step_error_status (name : String)
    (ubv v : Option Int) (e : HTTPErr)
    (h : upperbound_numeric_step name ubv v = .error e) :
    e.status = 400 := by
  unfold upperbound_numeric_step at h
  cases ubv with
  | none =>
    dsimp only at h
    exact absurd h (by simp)
  | some u =>
    cases v with
    | none =>
      dsimp only at h
      exact absurd h (by simp)
    | some x =>
      dsimp only at h
      split at h
      · cases h
        rfl
      · exact absurd h (by simp)

theorem upperbound_numeric_step_over (name : String) (u x : Int)
    (h : x > u) :
    ∃ e, upperbound_numeric_step name (some u) (some x) = .error e := by
  unfold upperbound_numeric_step
  dsimp only
  rw [if_pos h]
  exact ⟨_, rfl⟩

theorem upperbound_duration_step_ok (name : String)
    (ubv v w : Option String)
    (h : upperbound_duration_step name ubv v = .ok w) :
    w = v.or ubv := by
  unfold upperbound_duration_step at h
  cases ubv with
  | none =>
    dsimp only at h
    cases h
    cases v <;> rfl
  | some u =>
    cases v with
    | none =>
      dsimp only at h
      cases h
      rfl
    | some x =>
      dsimp only at h
      split at h
      · split at h
        · exact absurd h (by simp)
        · cases h
          rfl
      · exact absurd h (by simp)

theorem upperbound_duration_step_error_status (name : String)
    (ubv v : Option String) (e : HTTPErr)
    (h : upperbound_duration_step name ubv v = .error e) :
    e.status = 400 := by
  unfold upperbound_duration_step at h
  cases ubv with
  | none =>
    dsimp only at h
    exact absurd h (by simp)
  | some u =>
    cases v with
    | none =>
      dsimp only at h
      exact absurd h (by simp)
    | some x =>
      dsimp only at h
      split at h
      · split at h
        · cases h
          rfl
        · exact absurd h (by simp)
      · cases h
        rfl

theorem upperbound_duration_step_over (name : String) (u x : String)
    (us vs : Nat) (hu : duration_in_seconds u = some us)
    (hx : duration_in_seconds x = some vs) (h : vs > us) :
    ∃ e, upperbound_duration_step name (some u) (some x) = .error e := by
  unfold upperbound_duration_step
  dsimp only
  rw [hu, hx]
  dsimp only
  rw [if_pos h]
  exact ⟨_, rfl⟩

theorem apply_upperbound_ok_inv (ub : UpperboundKeyGenerateParams)
    (d r : GenerateKeyBoundedFields)
    (h : apply_upperbound_key_generate_params ub d = .ok r) :
    upperbound_numeric_step "max_budget" ub.max_budget d.max_budget =
      .ok r.max_budget ∧
    upperbound_numeric_step "max_parallel_requests"
      ub.max_parallel_requests d.max_parallel_requests =
      .ok r.max_parallel_requests ∧
    upperbound_numeric_step "tpm_limit" ub.tpm_limit d.tpm_limit =
      .ok r.tpm_limit ∧
    upperbound_numeric_step "rpm_limit" ub.rpm_limit d.rpm_limit =
      .ok r.rpm_limit ∧
    upperbound_duration_step "budget_duration" ub.budget_duration
      d.budget_duration = .ok r.budget_duration ∧
    upperbound_duration_step "duration" ub.duration d.duration =
      .ok r.duration := by
  unfold apply_upperbound_key_generate_params at h
  simp only [bind, Except.bind] at h
  cases h1 : upperbound_numeric_step "max_budget" ub.max_budget
      d.max_budget with
  | error e => rw [h1] at h; exact absurd h (by simp)
  | ok w1 =>
  rw [h1] at h
  dsimp only at h
  cases h2 : upperbound_numeric_step "max_parallel_requests"
      ub.max_parallel_requests d.max_parallel_requests with
  | error e => rw [h2] at h; exact absurd h (by simp)
  | ok w2 =>
  rw [h2] at h
  dsimp only at h
  cases h3 : upperbound_numeric_step "tpm_limit" ub.tpm_limit
      d.tpm_limit with
  | error e => rw [h3] at h; exact absurd h (by simp)
  | ok w3 =>
  rw [h3] at h
  dsimp only at h
  cases h4 : upperbound_numeric_step "rpm_limit" ub.rpm_limit
      d.rpm_limit with
  | error e => rw [h4] at h; exact absurd h (by simp)
  | ok w4 =>
  rw [h4] at h
  dsimp only at h
  cases h5 : upperbound_duration_step "budget_duration" ub.budget_duration
      d.budget_duration with
  | error e => rw [h5] at h; exact absurd h (by simp)
  | ok w5 =>
  rw [h5] at h
  dsimp only at h
  cases h6 : upperbound_duration_step "duration" ub.duration d.duration with
  | error e => rw [h6] at h; exact absurd h (by simp)
  | ok w6 =>
  rw [h6] at h
  dsimp only at h
  cases h
  exact ⟨rfl, rfl, rfl, rfl, rfl, rfl⟩

theorem apply_upperbound_error_status (ub : UpperboundKeyGenerateParams)
    (d : GenerateKeyBoundedFields) (e : HTTPErr)
    (h : apply_upperbound_key_generate_params ub d = .error e) :
    e.status = 400 := by
  unfold apply_upperbound_key_generate_params at h
  simp only [bind, Except.bind] at h
  cases h1 : upperbound_numeric_step "max_budget" ub.max_budget
      d.max_budget with
  | error e1 =>
    rw [h1] at h
    dsimp only at h
    cases h
    exact upperbound_numeric_step_error_status _ _ _ _ h1
  | ok w1 =>
  rw [h1] at h
  dsimp only at h
  cases h2 : upperbound_numeric_step "max_parallel_requests"
      ub.max_parallel_requests d.max_parallel_requests with
  | error e2 =>
    rw [h2] at h
    dsimp only at h
    cases h
    exact upperbound_numeric_step_error_status _ _ _ _ h2
  | ok w2 =>
  rw [h2] at h
  dsimp only at h
  cases h3 : upperbound_numeric_step "tpm_limit" ub.tpm_limit
      d.tpm_limit with
  | error e3 =>
    rw [h3] at h
    dsimp only at h
    cases h
    exact upperbound_numeric_step_error_status _ _ _ _ h3
  | ok w3 =>
  rw [h3] at h
  dsimp only at h
  cases h4 : upperbound_numeric_step "rpm_limit" ub.rpm_limit
      d.rpm_limit with
  | error e4 =>
    rw [h4] at h
    dsimp only at h
    cases h
    exact upperbound_numeric_step_error_status _ _ _ _ h4
  | ok w4 =>
  rw [h4] at h
  dsimp only at h
  cases h5 : upperbound_duration_step "budget_duration" ub.budget_duration
      d.budget_duration with
  | error e5 =>
    rw [h5] at h
    dsimp only at h
    cases h
    exact upperbound_duration_step_error_status _ _ _ _ h5
  | ok w5 =>
  rw [h5] at h
  dsimp only at h
  cases h6 : upperbound_duration_step "duration" ub.duration d.duration with
  | error e6 =>
    rw [h6] at h
    dsimp only at h
    cases h
    exact upperbound_duration_step_error_status _ _ _ _ h6
  | ok w6 =>
  rw [h6] at h
  dsimp only at h
  cases h

/-- C3: under a configured upperbound-parameters record, /key/generate
(1) adopts the ceiling for every upperbound field the caller left unset and
keeps a caller value at or below the ceiling unchanged (the successful
result of each field is the caller value when set, else the ceiling), and
(2) rejects with a 400 any caller numeric value above its ceiling and any
caller duration whose normalized seconds exceed the ceiling seconds. -/
theorem C3_upperbound_enforcement (ub : UpperboundKeyGenerateParams)
    (d : GenerateKeyBoundedFields) :
    (∀ r, apply_upperbound_key_generate_params ub d = .ok r →
      r.max_budget = d.max_budget.or ub.max_budget ∧
      r.max_parallel_requests =
        d.max_parallel_requests.or ub.max_parallel_requests ∧
      r.tpm_limit = d.tpm_limit.or ub.tpm_limit ∧
      r.rpm_limit = d.rpm_limit.or ub.rpm_limit ∧
      r.budget_duration = d.budget_duration.or ub.budget_duration ∧
      r.duration = d.duration.or ub.duration) ∧
    (∀ u x, ub.max_budget = some u → d.max_budget = some x → x > u →
      ∃ e, apply_upperbound_key_generate_params ub d = .error e ∧
        e.status = 400) ∧
    (∀ u x, ub.max_parallel_requests = some u →
      d.max_parallel_requests = some x → x > u →
      ∃ e, apply_upperbound_key_generate_params ub d = .error e ∧
        e.status = 400) ∧
    (∀ u x, ub.tpm_limit = some u → d.tpm_limit = some x → x > u →
      ∃ e, apply_upperbound_key_generate_params ub d = .error e ∧
        e.status = 400) ∧
    (∀ u x, ub.rpm_limit = some u → d.rpm_limit = some x → x > u →
      ∃ e, apply_upperbound_key_generate_params ub d = .error e ∧
        e.status = 400) ∧
    (∀ u x us vs, ub.budget_duration = some u → d.budget_duration = some x →
      duration_in_seconds u = some us → duration_in_seconds x = some vs →
      vs > us →
      ∃ e, apply_upperbound_key_generate_params ub d = .error e ∧
        e.status = 400) ∧
    (∀ u x us vs, ub.duration = some u → d.duration = some x →
      duration_in_seconds u = some us → duration_in_seconds x = some vs →
      vs > us →
      ∃ e, apply_upperbound_key_generate_params ub d = .error e ∧
        e.status = 400) := by
  refine ⟨?_, ?_, ?_, ?_, ?_, ?_, ?_⟩
  · intro r hr
    rcases apply_upperbound_ok_inv ub d r hr with ⟨h1, h2, h3, h4, h5, h6⟩
    exact ⟨upperbound_numeric_step_ok _ _ _ _ h1,
      upperbound_numeric_step_ok _ _ _ _ h2,
      upperbound_numeric_step_ok _ _ _ _ h3,
      upperbound_numeric_step_ok _ _ _ _ h4,
      upperbound_duration_step_ok _ _ _ _ h5,
      upperbound_duration_step_ok _ _ _ _ h6⟩
  · intro u x hu hx hover
    cases happ : apply_upperbound_key_generate_params ub d with
    | ok r =>
      exfalso
      rcases apply_upperbound_ok_inv ub d r happ with ⟨h1, _, _, _, _, _⟩
      rw [hu, hx] at h1
      rcases upperbound_numeric_step_over "max_budget" u x hover
        with ⟨e, he⟩
      rw [he] at h1
      exact Except.noConfusion h1
    | error e =>
      exact ⟨e, rfl, apply_upperbound_error_status ub d e happ⟩
  · intro u x hu hx hover
    cases happ : apply_upperbound_key_generate_params ub d with
    | ok r =>
      exfalso
      rcases apply_upperbound_ok_inv ub d r happ with ⟨_, h2, _, _, _, _⟩
      rw [hu, hx] at h2
      rcases upperbound_numeric_step_over "max_parallel_requests" u x hover
        with ⟨e, he⟩
      rw [he] at h2
      exact Except.noConfusion h2
    | error e =>
      exact ⟨e, rfl, apply_upperbound_error_status ub d e happ⟩
  · intro u x hu hx hover
    cases happ : apply_upperbound_key_generate_params ub d with
    | ok r =>
      exfalso
      rcases apply_upperbound_ok_inv ub d r happ with ⟨_, _, h3, _, _, _⟩
      rw [hu, hx] at h3
      rcases upperbound_numeric_step_over "tpm_limit" u x hover
        with ⟨e, he⟩
      rw [he] at h3
      exact Except.noConfusion h3
    | error e =>
      exact ⟨e, rfl, apply_upperbound_error_status ub d e happ⟩
  · intro u x hu hx hover
    cases happ : apply_upperbound_key_generate_params ub d with
    | ok r =>
      exfalso
      rcases apply_upperbound_ok_inv ub d r happ with ⟨_, _, _, h4, _, _⟩
      rw [hu, hx] at h4
      rcases upperbound_numeric_step_over "rpm_limit" u x hover
        with ⟨e, he⟩
      rw [he] at h4
      exact Except.noConfusion h4
    | error e =>
      exact ⟨e, rfl, apply_upperbound_error_status ub d e happ⟩
  · intro u x us vs hu hx hus hvs hover
    cases happ : apply_upperbound_key_generate_params ub d with
    | ok r =>
      exfalso
      rcases apply_upperbound_ok_inv ub d r happ with ⟨_, _, _, _, h5, _⟩
      rw [hu, hx] at h5
      rcases upperbound_duration_step_over "budget_duration" u x us vs hus
        hvs hover with ⟨e, he⟩
      rw [he] at h5
      exact Except.noConfusion h5
    | error e =>
      exact ⟨e, rfl, apply_upperbound_error_status ub d e happ⟩
  · intro u x us vs hu hx hus hvs hover
    cases happ : apply_upperbound_key_generate_params ub d with
    | ok r =>
      exfalso
      rcases apply_upperbound_ok_inv ub d r happ with ⟨_, _, _, _, _, h6⟩
      rw [hu, hx] at h6
      rcases upperbound_duration_step_over "duration" u x us vs hus hvs
        hover with ⟨e, he⟩
      rw [he] at h6
      exact Except.noConfusion h6
    | error e =>
      exact ⟨e, rfl, apply_upperbound_error_status ub d e happ⟩

/-- Witness for C3, the example of the spec: a ceiling of max_budget 10
rejects a request with max_budget 15 with a 400, and a request with
max_budget 5 succeeds keeping 5. -/
theorem C3_upperbound_enforcement_witness :
    ((⟨some 10, none, none, none, none, none⟩ :
        UpperboundKeyGenerateParams).max_budget = some 10) ∧
    ((⟨some 15, none, none, none, none, none⟩ :
        GenerateKeyBoundedFields).max_budget = some 15) ∧
    ((15 : Int) > 10) ∧
    (∃ e, apply_upperbound_key_generate_params
        ⟨some 10, none, none, none, none, none⟩
        ⟨some 15, none, none, none, none, none⟩ = .error e ∧
      e.status = 400) ∧
    (apply_upperbound_key_generate_params
        ⟨some 10, none, none, none, none, none⟩
        ⟨some 5, none, none, none, none, none⟩ =
      .ok ⟨some 5, none, none, none, none, none⟩) :=
  ⟨rfl, rfl, by decide,
    (C3_upperbound_enforcement ⟨some 10, none, none, none, none, none⟩
      ⟨some 15, none, none, none, none, none⟩).2.1 10 15 rfl rfl
      (by decide),
    rfl⟩

theorem dictLookup_dictRemove (d : Dict) (j k : String) :
    dictLookup (dictRemove d j) k =
      if k = j then none else dictLookup d k := by
  induction d with
  | nil => simp [dictRemove, dictLookup_nil]
  | cons p rest ih =>
    by_cases hpj : p.1 = j
    · by_cases hkj : k = j
      · simp [dictRemove, List.filter_cons, hpj, hkj] at ih ⊢
        simpa [hkj] using ih
      · have hpk : ¬p.1 = k := by
          rw [hpj]
          exact fun hh => hkj hh.symm
        simp only [dictRemove, List.filter_cons] at ih ⊢
        rw [show (!(p.1 == j)) = false by simp [hpj]]
        simp only [Bool.false_eq_true, if_false]
        rw [ih, if_neg hkj, dictLookup_cons,
          show (p.1 == k) = false from beq_eq_false_iff_ne.mpr hpk]
        simp only [Bool.false_eq_true, if_false]
        rw [if_neg hkj]
    · simp only [dictRemove, List.filter_cons] at ih ⊢
      rw [show (!(p.1 == j)) = true by simp [hpj]]
      simp only [if_true]
      by_cases hpk : p.1 = k
      · rw [dictLookup_cons, dictLookup_cons,
          show (p.1 == k) = true by simp [hpk]]
        have hkj : ¬k = j := by
          rw [← hpk]
          exact fun hh => hpj hh
        simp [hkj]
      · rw [dictLookup_cons, dictLookup_cons,
          show (p.1 == k) = false from beq_eq_false_iff_ne.mpr hpk, ih]
        simp

theorem dictLookup_ne_none_of_mem (l : Dict) (k : String) (v : JVal)
    (h : (k, v) ∈ l) : dictLookup l k ≠ none := by
  induction l with
  | nil => cases h
  | cons p rest ih =>
    rcases List.mem_cons.mp h with heq | hmem
    · rw [← heq, dictLookup_cons]
      simp
    · rw [dictLookup_cons]
      by_cases hpk : (p.1 == k) = true
      · simp [hpk]
      · simp only [hpk]
        simpa using ih hmem

theorem dictLookup_of_mem_nodup (l : Dict) (k : String) (v : JVal)
    (hnd : (l.map Prod.fst).Nodup) (hm : (k, v) ∈ l) :
    dictLookup l k = some v := by
  induction l with
  | nil => cases hm
  | cons p rest ih =>
    rcases List.mem_cons.mp hm with heq | hmem
    · rw [← heq, dictLookup_cons]
      simp
    · have hnotin : p.1 ∉ rest.map Prod.fst :=
        (List.nodup_cons.mp hnd).1
      have hkmem : k ∈ rest.map Prod.fst := by
        exact List.mem_map_of_mem Prod.fst hmem
      have hpk : ¬p.1 = k := fun hh => hnotin (hh ▸ hkmem)
      rw [dictLookup_cons,
        show (p.1 == k) = false from beq_eq_false_iff_ne.mpr hpk]
      simp only [Bool.false_eq_true, if_false]
      exact ih (List.nodup_cons.mp hnd).2 hmem

theorem key_update_main_fold_skip (l acc : Dict) (k : String)
    (h : ∀ v, (k, v) ∈ l →
      _metadata_fields.contains k = true ∨ keep_in_patch v = false) :
    dictLookup (l.foldl (fun acc p =>
      if _metadata_fields.contains p.1 then acc
      else if keep_in_patch p.2 then dictSet acc p.1 p.2 else acc) acc) k =
    dictLookup acc k := by
  induction l generalizing acc with
  | nil => rfl
  | cons p rest ih =>
    simp only [List.foldl_cons]
    have hrest : ∀ v, (k, v) ∈ rest →
        _metadata_fields.contains k = true ∨ keep_in_patch v = false :=
      fun v hv => h v (List.mem_cons_of_mem _ hv)
    by_cases hpk : p.1 = k
    · have hpmem : (k, p.2) ∈ p :: rest := by
        rw [← hpk]
        exact List.mem_cons_self _ _
      rcases h p.2 hpmem with hmf | hkeep
      · rw [if_pos (by rw [hpk]; exact hmf)]
        exact ih _ hrest
      · by_cases hmf2 : _metadata_fields.contains p.1 = true
        · rw [if_pos hmf2]
          exact ih _ hrest
        · rw [if_neg hmf2, if_neg (by rw [hkeep]; simp)]
          exact ih _ hrest
    · by_cases hmf : _metadata_fields.contains p.1 = true
      · rw [if_pos hmf]
        exact ih _ hrest
      · rw [if_neg hmf]
        by_cases hkp : keep_in_patch p.2 = true
        · rw [if_pos hkp, ih _ hrest,
            dictLookup_dictSet_other _ _ _ _ (Ne.symm hpk)]
        · rw [if_neg hkp]
          exact ih _ hrest

theorem key_update_main_fold_mem (l : Dict) (k : String) (v : JVal)
    (hnd : (l.map Prod.fst).Nodup) (hm : (k, v) ∈ l)
    (hmf : _metadata_fields.contains k = false)
    (hkeep : keep_in_patch v = true) (acc : Dict) :
    dictLookup (l.foldl (fun acc p =>
      if _metadata_fields.contains p.1 then acc
      else if keep_in_patch p.2 then dictSet acc p.1 p.2 else acc) acc) k =
    some v := by
  induction l generalizing acc with
  | nil => cases hm
  | cons p rest ih =>
    simp only [List.foldl_cons]
    rcases List.mem_cons.mp hm with heq | hmem
    · rw [← heq]
      rw [if_neg (by rw [hmf]; simp), if_pos hkeep]
      have hnotin : k ∉ rest.map Prod.fst := by
        have := (List.nodup_cons.mp hnd).1
        rw [← heq] at this
        exact this
      have hskip : ∀ v2, (k, v2) ∈ rest →
          _metadata_fields.contains k = true ∨ keep_in_patch v2 = false :=
        fun v2 hv2 =>
          absurd (List.mem_map_of_mem Prod.fst hv2) hnotin
      rw [key_update_main_fold_skip rest _ k hskip,
        dictLookup_dictSet_self]
    · have hnotin : p.1 ∉ rest.map Prod.fst := (List.nodup_cons.mp hnd).1
      exact ih (List.nodup_cons.mp hnd).2 hmem _

theorem key_update_duration_stage_lookup (now : Int) (ndv n1 : Dict)
    (k : String) (h : key_update_duration_stage now ndv = .ok n1)
    (hk1 : k ≠ "expires") (hk2 : k ≠ "duration") :
    dictLookup n1 k = dictLookup ndv k := by
  unfold key_update_duration_stage at h
  cases hd : dictLookup ndv "duration" with
  | none =>
    rw [hd] at h
    cases h
    rfl
  | some dv =>
    rw [hd] at h
    cases dv with
    | jstr s =>
      dsimp only at h
      split at h
      · cases h
        rw [dictLookup_dictRemove, if_neg hk2]
      · cases hds : duration_in_seconds s with
        | none =>
          rw [hds] at h
          exact absurd h (by simp)
        | some ds =>
          rw [hds] at h
          cases h
          rw [dictLookup_dictSet_other _ _ _ _ hk1,
            dictLookup_dictRemove, if_neg hk2]
    | jnull =>
      cases h
      rw [dictLookup_dictRemove, if_neg hk2]
    | jbool b =>
      cases h
      rw [dictLookup_dictRemove, if_neg hk2]
    | jnum n =>
      cases h
      rw [dictLookup_dictRemove, if_neg hk2]
    | jlist xs =>
      cases h
      rw [dictLookup_dictRemove, if_neg hk2]
    | jdict kvs =>
      cases h
      rw [dictLookup_dictRemove, if_neg hk2]

theorem key_update_duration_stage_pops (now : Int) (ndv n1 : Dict)
    (h : key_update_duration_stage now ndv = .ok n1)
    (h0 : dictLookup ndv "duration" = none) :
    dictLookup n1 "duration" = none := by
  unfold key_update_duration_stage at h
  rw [h0] at h
  cases h
  exact h0

theorem key_update_budget_duration_stage_lookup (now : Int) (ndv n2 : Dict)
    (k : String) (h : key_update_budget_duration_stage now ndv = .ok n2)
    (hk : k ≠ "budget_reset_at") :
    dictLookup n2 k = dictLookup ndv k := by
  unfold key_update_budget_duration_stage at h
  cases hd : dictLookup ndv "budget_duration" with
  | none =>
    rw [hd] at h
    cases h
    rfl
  | some bv =>
    rw [hd] at h
    cases bv with
    | jstr s =>
      dsimp only at h
      cases hds : duration_in_seconds s with
      | none =>
        rw [hds] at h
        exact absurd h (by simp)
      | some ds =>
        rw [hds] at h
        cases h
        rw [dictLookup_dictSet_other _ _ _ _ hk]
    | jnull => exact absurd h (by simp)
    | jbool b => exact absurd h (by simp)
    | jnum n => exact absurd h (by simp)
    | jlist xs => exact absurd h (by simp)
    | jdict kvs => exact absurd h (by simp)

theorem merge_limit_field_ok_cases (field : String) (data0 ndv md : Dict)
    (ndv2 md2 : Dict)
    (h : merge_limit_field field data0 ndv md = .ok (ndv2, md2)) :
    (ndv2 = ndv ∧ md2 = md) ∨
    (∃ m cur, dictGetAttr data0 field = .jdict m ∧ m ≠ [] ∧
      read_submap md field = .ok cur ∧
      md2 = dictSet md field (.jdict (dictUpdate cur m)) ∧
      ndv2 = dictSet ndv "metadata" (.jdict md2)) := by
  unfold merge_limit_field at h
  cases hattr : dictGetAttr data0 field with
  | jdict m =>
    rw [hattr] at h
    dsimp only at h
    split at h
    · rename_i htr
      cases hread : read_submap md field with
      | error e =>
        rw [hread] at h
        exact absurd h (by simp)
      | ok cur =>
        rw [hread] at h
        dsimp only at h
        cases h
        refine Or.inr ⟨m, cur, rfl, ?_, rfl, rfl, rfl⟩
        intro hnil
        rw [hnil] at htr
        simp [JVal.truthy] at htr
    · cases h
      exact Or.inl ⟨rfl, rfl⟩
  | jnull =>
    rw [hattr] at h
    dsimp only at h
    split at h
    · exact absurd h (by simp)
    · cases h
      exact Or.inl ⟨rfl, rfl⟩
  | jbool b =>
    rw [hattr] at h
    dsimp only at h
    split at h
    · exact absurd h (by simp)
    · cases h
      exact Or.inl ⟨rfl, rfl⟩
  | jnum n =>
    rw [hattr] at h
    dsimp only at h
    split at h
    · exact absurd h (by simp)
    · cases h
      exact Or.inl ⟨rfl, rfl⟩
  | jstr s =>
    rw [hattr] at h
    dsimp only at h
    split at h
    · exact absurd h (by simp)
    · cases h
      exact Or.inl ⟨rfl, rfl⟩
  | jlist xs =>
    rw [hattr] at h
    dsimp only at h
    split at h
    · exact absurd h (by simp)
    · cases h
      exact Or.inl ⟨rfl, rfl⟩

theorem merge_limit_field_ok_truthy (field : String) (data0 ndv md : Dict)
    (ndv2 md2 : Dict) (m : Dict)
    (hattr : dictGetAttr data0 field = .jdict m) (hm : m ≠ [])
    (h : merge_limit_field field data0 ndv md = .ok (ndv2, md2)) :
    ∃ cur, read_submap md field = .ok cur ∧
      md2 = dictSet md field (.jdict (dictUpdate cur m)) ∧
      ndv2 = dictSet ndv "metadata" (.jdict md2) := by
  unfold merge_limit_field at h
  rw [hattr] at h
  dsimp only at h
  rw [if_pos (by simp [JVal.truthy, List.isEmpty_iff, hm])] at h
  cases hread : read_submap md field with
  | error e =>
    rw [hread] at h
    exact absurd h (by simp)
  | ok cur =>
    rw [hread] at h
    dsimp only at h
    cases h
    exact ⟨cur, rfl, rfl, rfl⟩

theorem merge_guardrails_field_cases (data0 ndv md : Dict) :
    ((dictGetAttr data0 "guardrails").truthy = false ∧
      merge_guardrails_field data0 ndv md = (ndv, md)) ∨
    ((dictGetAttr data0 "guardrails").truthy = true ∧
      merge_guardrails_field data0 ndv md =
        (dictSet ndv "metadata"
          (.jdict (dictSet md "guardrails" (dictGetAttr data0 "guardrails"))),
          dictSet md "guardrails" (dictGetAttr data0 "guardrails"))) := by
  unfold merge_guardrails_field
  by_cases ht : (dictGetAttr data0 "guardrails").truthy = true
  · right
    rw [if_pos ht]
    exact ⟨ht, rfl⟩
  · left
    rw [if_neg ht]
    exact ⟨eq_false_of_ne_true ht, rfl⟩

theorem merge_limit_field_ndv_lookup (field : String)
    (data0 ndv md ndv2 md2 : Dict) (k : String)
    (h : merge_limit_field field data0 ndv md = .ok (ndv2, md2))
    (hk : k ≠ "metadata") :
    dictLookup ndv2 k = dictLookup ndv k := by
  rcases merge_limit_field_ok_cases field data0 ndv md ndv2 md2 h with
    ⟨h1, _⟩ | ⟨m, cur, _, _, _, _, hndv⟩
  · rw [h1]
  · rw [hndv, dictLookup_dictSet_other _ _ _ _ hk]

theorem merge_limit_field_md_lookup (field : String)
    (data0 ndv md ndv2 md2 : Dict) (j : String)
    (h : merge_limit_field field data0 ndv md = .ok (ndv2, md2))
    (hj : j ≠ field) :
    dictLookup md2 j = dictLookup md j := by
  rcases merge_limit_field_ok_cases field data0 ndv md ndv2 md2 h with
    ⟨_, h2⟩ | ⟨m, cur, _, _, _, hmd, _⟩
  · rw [h2]
  · rw [hmd, dictLookup_dictSet_other _ _ _ _ hj]

theorem read_submap_congr (md1 md2 : Dict) (f : String)
    (h : dictLookup md1 f = dictLookup md2 f) :
    read_submap md1 f = read_submap md2 f := by
  unfold read_submap
  rw [h]

theorem prepare_key_update_data_ok_inv (now : Int) (data0 : Dict)
    (md? : Option Dict) (out : Dict)
    (h : prepare_key_update_data now data0 md? = .ok out) :
    ∃ n1 n2 n3 m3 n4 m4,
      key_update_duration_stage now
        (key_update_main_loop (dictRemove data0 "key")) = .ok n1 ∧
      key_update_budget_duration_stage now n1 = .ok n2 ∧
      merge_limit_field "model_tpm_limit" data0 n2 (md?.getD []) =
        .ok (n3, m3) ∧
      merge_limit_field "model_rpm_limit" data0 n3 m3 = .ok (n4, m4) ∧
      out = (merge_guardrails_field data0 n4 m4).1 := by
  unfold prepare_key_update_data at h
  simp only [bind, Except.bind] at h
  cases h1 : key_update_duration_stage now
      (key_update_main_loop (dictRemove data0 "key")) with
  | error e => rw [h1] at h; exact absurd h (by simp)
  | ok n1 =>
  rw [h1] at h
  dsimp only at h
  cases h2 : key_update_budget_duration_stage now n1 with
  | error e => rw [h2] at h; exact absurd h (by simp)
  | ok n2 =>
  rw [h2] at h
  dsimp only at h
  cases h3 : merge_limit_field "model_tpm_limit" data0 n2 (md?.getD []) with
  | error e => rw [h3] at h; exact absurd h (by simp)
  | ok p3 =>
  rw [h3] at h
  rcases p3 with ⟨n3, m3⟩
  dsimp only at h
  cases h4 : merge_limit_field "model_rpm_limit" data0 n3 m3 with
  | error e => rw [h4] at h; exact absurd h (by simp)
  | ok p4 =>
  rw [h4] at h
  rcases p4 with ⟨n4, m4⟩
  dsimp only at h
  cases hg : merge_guardrails_field data0 n4 m4 with
  | mk a b =>
  rw [hg] at h
  dsimp only at h
  cases h
  exact ⟨n1, n2, n3, m3, n4, m4, rfl, h2, h3, h4, by rw [hg]⟩

theorem mem_of_dictLookup (l : Dict) (k : String) (v : JVal)
    (h : dictLookup l k = some v) : (k, v) ∈ l := by
  induction l with
  | nil => cases h
  | cons p rest ih =>
    rw [dictLookup_cons] at h
    by_cases hpk : (p.1 == k) = true
    · rw [if_pos hpk] at h
      have hv : p.2 = v := Option.some.inj h
      have hk : p.1 = k := beq_iff_eq.mp hpk
      have hp : (k, v) = p := by
        rw [← hk, ← hv]
      rw [hp]
      exact List.mem_cons_self _ _
    · rw [if_neg hpk] at h
      exact List.mem_cons_of_mem _ (ih h)

theorem keep_in_patch_eq_false_of_bare_falsy (v : JVal)
    (h : v.bare_falsy = true) : keep_in_patch v = false := by
  cases v with
  | jnull => simp [JVal.bare_falsy] at h
  | jbool b => simp [JVal.bare_falsy] at h
  | jnum n => simp [keep_in_patch, h]
  | jstr s => simp [JVal.bare_falsy] at h
  | jlist xs => simp [keep_in_patch, h]
  | jdict kvs => simp [keep_in_patch, h]

theorem prepare_out_lookup_chain (now : Int) (data0 : Dict)
    (md? : Option Dict) (out : Dict) (k : String)
    (hok : prepare_key_update_data now data0 md? = .ok out)
    (hk1 : k ≠ "expires") (hk2 : k ≠ "budget_reset_at")
    (hk3 : k ≠ "metadata") (hk4 : k ≠ "duration") :
    dictLookup out k =
      dictLookup (key_update_main_loop (dictRemove data0 "key")) k := by
  rcases prepare_key_update_data_ok_inv now data0 md? out hok with
    ⟨n1, n2, n3, m3, n4, m4, h1, h2, h3, h4, hout⟩
  have e4 : dictLookup out k = dictLookup n4 k := by
    rcases merge_guardrails_field_cases data0 n4 m4 with ⟨_, hg⟩ | ⟨_, hg⟩
    · rw [hout, hg]
    · rw [hout, hg]
      dsimp only
      rw [dictLookup_dictSet_other _ _ _ _ hk3]
  rw [e4, merge_limit_field_ndv_lookup _ _ _ _ _ _ _ h4 hk3,
    merge_limit_field_ndv_lookup _ _ _ _ _ _ _ h3 hk3,
    key_update_budget_duration_stage_lookup _ _ _ _ h2 hk2,
    key_update_duration_stage_lookup _ _ _ _ h1 hk1 hk4]

theorem prepare_out_duration_none (now : Int) (data0 : Dict)
    (md? : Option Dict) (out : Dict)
    (hok : prepare_key_update_data now data0 md? = .ok out)
    (hmain : dictLookup (key_update_main_loop (dictRemove data0 "key"))
      "duration" = none) :
    dictLookup out "duration" = none := by
  rcases prepare_key_update_data_ok_inv now data0 md? out hok with
    ⟨n1, n2, n3, m3, n4, m4, h1, h2, h3, h4, hout⟩
  have e4 : dictLookup out "duration" = dictLookup n4 "duration" := by
    rcases merge_guardrails_field_cases data0 n4 m4 with ⟨_, hg⟩ | ⟨_, hg⟩
    · rw [hout, hg]
    · rw [hout, hg]
      dsimp only
      rw [dictLookup_dictSet_other _ _ _ _ (by decide)]
  rw [e4, merge_limit_field_ndv_lookup _ _ _ _ _ _ _ h4 (by decide),
    merge_limit_field_ndv_lookup _ _ _ _ _ _ _ h3 (by decide),
    key_update_budget_duration_stage_lookup _ _ _ _ h2 (by decide)]
  exact key_update_duration_stage_pops now _ n1 h1 hmain

/-- C5: the update-preparation routine shared by /key/update and
/key/regenerate produces a patch containing only fields the caller
explicitly set (an unset field can reach the patch only as one of the
derived names expires, budget_reset_at or metadata); an explicitly-set
non-metadata field carrying a bare non-boolean falsy value (empty list,
empty dict, zero) is dropped as a no-op while any other explicitly-set
value is kept; a supplied non-empty model_tpm_limit or model_rpm_limit is
deep-merged into the same-named nested map of the existing row metadata;
and a supplied truthy guardrails value replaces the metadata guardrails
entry outright. -/
theorem C5_prepare_key_update_data (now : Int) (data_json0 : Dict)
    (existing_metadata : Option Dict) (out : Dict)
    (hnodup : (data_json0.map Prod.fst).Nodup)
    (hok : prepare_key_update_data now data_json0 existing_metadata =
      .ok out) :
    (∀ k, dictLookup data_json0 k = none → k ≠ "expires" →
      k ≠ "budget_reset_at" → k ≠ "metadata" →
      dictLookup out k = none) ∧
    (∀ k v, dictLookup data_json0 k = some v → v.bare_falsy = true →
      _metadata_fields.contains k = false → k ≠ "expires" →
      k ≠ "budget_reset_at" → k ≠ "metadata" →
      dictLookup out k = none) ∧
    (∀ k v, dictLookup data_json0 k = some v → keep_in_patch v = true →
      _metadata_fields.contains k = false → k ≠ "key" → k ≠ "duration" →
      k ≠ "expires" → k ≠ "budget_reset_at" → k ≠ "metadata" →
      dictLookup out k = some v) ∧
    (∀ m cur, dictGetAttr data_json0 "model_tpm_limit" = .jdict m →
      m ≠ [] →
      read_submap (existing_metadata.getD []) "model_tpm_limit" = .ok cur →
      ∃ mdOut, dictLookup out "metadata" = some (.jdict mdOut) ∧
        dictLookup mdOut "model_tpm_limit" =
          some (.jdict (dictUpdate cur m))) ∧
    (∀ m cur, dictGetAttr data_json0 "model_rpm_limit" = .jdict m →
      m ≠ [] →
      read_submap (existing_metadata.getD []) "model_rpm_limit" = .ok cur →
      ∃ mdOut, dictLookup out "metadata" = some (.jdict mdOut) ∧
        dictLookup mdOut "model_rpm_limit" =
          some (.jdict (dictUpdate cur m))) ∧
    (∀ g, dictGetAttr data_json0 "guardrails" = g → g.truthy = true →
      ∃ mdOut, dictLookup out "metadata" = some (.jdict mdOut) ∧
        dictLookup mdOut "guardrails" = some g) := by
  refine ⟨?_, ?_, ?_, ?_, ?_, ?_⟩
  · intro k hnone hk1 hk2 hk3
    have hskip : ∀ v, (k, v) ∈ dictRemove data_json0 "key" →
        _metadata_fields.contains k = true ∨ keep_in_patch v = false :=
      fun v hv =>
        absurd hnone (dictLookup_ne_none_of_mem _ _ v
          (List.mem_of_mem_filter hv))
    have hmain : dictLookup
        (key_update_main_loop (dictRemove data_json0 "key")) k = none := by
      unfold key_update_main_loop
      rw [key_update_main_fold_skip _ _ _ hskip]
      rfl
    by_cases hk4 : k = "duration"
    · subst hk4
      exact prepare_out_duration_none now data_json0 existing_metadata out
        hok hmain
    · rw [prepare_out_lookup_chain now data_json0 existing_metadata out k
        hok hk1 hk2 hk3 hk4]
      exact hmain
  · intro k v hsome hfalsy hmf hk1 hk2 hk3
    have hskip : ∀ v2, (k, v2) ∈ dictRemove data_json0 "key" →
        _metadata_fields.contains k = true ∨ keep_in_patch v2 = false := by
      intro v2 hv2
      have hmem0 : (k, v2) ∈ data_json0 := List.mem_of_mem_filter hv2
      have hl2 : dictLookup data_json0 k = some v2 :=
        dictLookup_of_mem_nodup _ _ _ hnodup hmem0
      have hv2v : v2 = v := by
        rw [hsome] at hl2
        exact (Option.some.inj hl2).symm
      exact Or.inr (hv2v ▸ keep_in_patch_eq_false_of_bare_falsy v hfalsy)
    have hmain : dictLookup
        (key_update_main_loop (dictRemove data_json0 "key")) k = none := by
      unfold key_update_main_loop
      rw [key_update_main_fold_skip _ _ _ hskip]
      rfl
    by_cases hk4 : k = "duration"
    · subst hk4
      exact prepare_out_duration_none now data_json0 existing_metadata out
        hok hmain
    · rw [prepare_out_lookup_chain now data_json0 existing_metadata out k
        hok hk1 hk2 hk3 hk4]
      exact hmain
  · intro k v hsome hkeep hmf hkey hdur hk1 hk2 hk3
    have hmem : (k, v) ∈ data_json0 := mem_of_dictLookup _ _ _ hsome
    have hmemr : (k, v) ∈ dictRemove data_json0 "key" := by
      unfold dictRemove
      refine List.mem_filter.mpr ⟨hmem, ?_⟩
      simp [beq_eq_false_iff_ne.mpr hkey]
    have hndr : ((dictRemove data_json0 "key").map Prod.fst).Nodup := by
      unfold dictRemove
      exact hnodup.sublist (List.Sublist.map Prod.fst
        (List.filter_sublist data_json0))
    have hmain : dictLookup
        (key_update_main_loop (dictRemove data_json0 "key")) k = some v := by
      unfold key_update_main_loop
      exact key_update_main_fold_mem _ _ _ hndr hmemr hmf hkeep []
    rw [prepare_out_lookup_chain now data_json0 existing_metadata out k
      hok hk1 hk2 hk3 hdur]
    exact hmain
  · intro m cur hattr hm hcur
    rcases prepare_key_update_data_ok_inv now data_json0 existing_metadata
      out hok with ⟨n1, n2, n3, m3, n4, m4, h1, h2, h3, h4, hout⟩
    rcases merge_limit_field_ok_truthy _ _ _ _ _ _ m hattr hm h3 with
      ⟨cur2, hread2, hm3, hn3⟩
    rw [hcur] at hread2
    cases hread2
    have hm3tpm : dictLookup m3 "model_tpm_limit" =
        some (.jdict (dictUpdate cur m)) := by
      rw [hm3, dictLookup_dictSet_self]
    have hm4tpm : dictLookup m4 "model_tpm_limit" =
        some (.jdict (dictUpdate cur m)) := by
      rw [merge_limit_field_md_lookup _ _ _ _ _ _ _ h4 (by decide)]
      exact hm3tpm
    have hn3meta : dictLookup n3 "metadata" = some (.jdict m3) := by
      rw [hn3, dictLookup_dictSet_self]
    rcases merge_limit_field_ok_cases "model_rpm_limit" data_json0 n3 m3 n4
        m4 h4 with ⟨hn4, hm4⟩ | ⟨m2, cur3, _, _, _, hm4, hn4⟩
    · rcases merge_guardrails_field_cases data_json0 n4 m4 with
        ⟨_, hg⟩ | ⟨_, hg⟩
      · refine ⟨m3, ?_, hm3tpm⟩
        rw [hout, hg]
        dsimp only
        rw [hn4]
        exact hn3meta
      · refine ⟨dictSet m4 "guardrails"
          (dictGetAttr data_json0 "guardrails"), ?_, ?_⟩
        · rw [hout, hg]
          dsimp only
          rw [dictLookup_dictSet_self]
        · rw [dictLookup_dictSet_other _ _ _ _ (by decide)]
          exact hm4tpm
    · rcases merge_guardrails_field_cases data_json0 n4 m4 with
        ⟨_, hg⟩ | ⟨_, hg⟩
      · refine ⟨m4, ?_, hm4tpm⟩
        rw [hout, hg]
        dsimp only
        rw [hn4, dictLookup_dictSet_self]
      · refine ⟨dictSet m4 "guardrails"
          (dictGetAttr data_json0 "guardrails"), ?_, ?_⟩
        · rw [hout, hg]
          dsimp only
          rw [dictLookup_dictSet_self]
        · rw [dictLookup_dictSet_other _ _ _ _ (by decide)]
          exact hm4tpm
  · intro m cur hattr hm hcur
    rcases prepare_key_update_data_ok_inv now data_json0 existing_metadata
      out hok with ⟨n1, n2, n3, m3, n4, m4, h1, h2, h3, h4, hout⟩
    have hm3rpm : dictLookup m3 "model_rpm_limit" =
        dictLookup (existing_metadata.getD []) "model_rpm_limit" :=
      merge_limit_field_md_lookup _ _ _ _ _ _ _ h3 (by decide)
    have hread3 : read_submap m3 "model_rpm_limit" = .ok cur := by
      rw [read_submap_congr _ _ _ hm3rpm]
      exact hcur
    rcases merge_limit_field_ok_truthy _ _ _ _ _ _ m hattr hm h4 with
      ⟨cur2, hread2, hm4, hn4⟩
    rw [hread3] at hread2
    cases hread2
    have hm4rpm : dictLookup m4 "model_rpm_limit" =
        some (.jdict (dictUpdate cur m)) := by
      rw [hm4, dictLookup_dictSet_self]
    rcases merge_guardrails_field_cases data_json0 n4 m4 with
      ⟨_, hg⟩ | ⟨_, hg⟩
    · refine ⟨m4, ?_, hm4rpm⟩
      rw [hout, hg]
      dsimp only
      rw [hn4, dictLookup_dictSet_self]
    · refine ⟨dictSet m4 "guardrails"
        (dictGetAttr data_json0 "guardrails"), ?_, ?_⟩
      · rw [hout, hg]
        dsimp only
        rw [dictLookup_dictSet_self]
      · rw [dictLookup_dictSet_other _ _ _ _ (by decide)]
        exact hm4rpm
  · intro g hgattr hgtruthy
    rcases prepare_key_update_data_ok_inv now data_json0 existing_metadata
      out hok with ⟨n1, n2, n3, m3, n4, m4, h1, h2, h3, h4, hout⟩
    rcases merge_guardrails_field_cases data_json0 n4 m4 with
      ⟨hfalse, _⟩ | ⟨_, hg⟩
    · rw [hgattr, hgtruthy] at hfalse
      cases hfalse
    · refine ⟨dictSet m4 "guardrails"
        (dictGetAttr data_json0 "guardrails"), ?_, ?_⟩
      · rw [hout, hg]
        dsimp only
        rw [dictLookup_dictSet_self]
      · rw [dictLookup_dictSet_self, hgattr]

/-- Witness for C5: a request setting key, a zero max_parallel_requests, a
spend of 5, a model_tpm_limit map and a guardrails list, against a row
whose metadata already holds a model_tpm_limit submap and a guardrails
entry: the zero field is dropped, spend is kept, the tpm map is deep-merged
and guardrails replaced. -/
theorem C5_prepare_key_update_data_witness :
    (([("key", JVal.jstr "sk-old"), ("max_parallel_requests", JVal.jnum 0),
        ("spend", JVal.jnum 5),
        ("model_tpm_limit", JVal.jdict [("gpt", JVal.jnum 100)]),
        ("guardrails", JVal.jlist [JVal.jstr "g1"])] : Dict).map
        Prod.fst).Nodup ∧
    prepare_key_update_data 0
      [("key", JVal.jstr "sk-old"), ("max_parallel_requests", JVal.jnum 0),
        ("spend", JVal.jnum 5),
        ("model_tpm_limit", JVal.jdict [("gpt", JVal.jnum 100)]),
        ("guardrails", JVal.jlist [JVal.jstr "g1"])]
      (some [("model_tpm_limit", JVal.jdict [("old", JVal.jnum 1)]),
        ("guardrails", JVal.jlist [JVal.jstr "old"])]) =
      .ok [("spend", JVal.jnum 5),
        ("metadata", JVal.jdict
          [("model_tpm_limit",
            JVal.jdict [("old", JVal.jnum 1), ("gpt", JVal.jnum 100)]),
            ("guardrails", JVal.jlist [JVal.jstr "g1"])])] ∧
    dictLookup [("spend", JVal.jnum 5),
        ("metadata", JVal.jdict
          [("model_tpm_limit",
            JVal.jdict [("old", JVal.jnum 1), ("gpt", JVal.jnum 100)]),
            ("guardrails", JVal.jlist [JVal.jstr "g1"])])]
      "max_parallel_requests" = none ∧
    dictLookup [("spend", JVal.jnum 5),
        ("metadata", JVal.jdict
          [("model_tpm_limit",
            JVal.jdict [("old", JVal.jnum 1), ("gpt", JVal.jnum 100)]),
            ("guardrails", JVal.jlist [JVal.jstr "g1"])])]
      "spend" = some (JVal.jnum 5) ∧
    (∃ mdOut, dictLookup [("spend", JVal.jnum 5),
        ("metadata", JVal.jdict
          [("model_tpm_limit",
            JVal.jdict [("old", JVal.jnum 1), ("gpt", JVal.jnum 100)]),
            ("guardrails", JVal.jlist [JVal.jstr "g1"])])]
        "metadata" = some (.jdict mdOut) ∧
      dictLookup mdOut "model_tpm_limit" = some (.jdict
        (dictUpdate [("old", JVal.jnum 1)] [("gpt", JVal.jnum 100)]))) ∧
    (∃ mdOut, dictLookup [("spend", JVal.jnum 5),
        ("metadata", JVal.jdict
          [("model_tpm_limit",
            JVal.jdict [("old", JVal.jnum 1), ("gpt", JVal.jnum 100)]),
            ("guardrails", JVal.jlist [JVal.jstr "g1"])])]
        "metadata" = some (.jdict mdOut) ∧
      dictLookup mdOut "guardrails" =
        some (JVal.jlist [JVal.jstr "g1"])) := by
  have H := C5_prepare_key_update_data 0
    [("key", JVal.jstr "sk-old"), ("max_parallel_requests", JVal.jnum 0),
      ("spend", JVal.jnum 5),
      ("model_tpm_limit", JVal.jdict [("gpt", JVal.jnum 100)]),
      ("guardrails", JVal.jlist [JVal.jstr "g1"])]
    (some [("model_tpm_limit", JVal.jdict [("old", JVal.jnum 1)]),
      ("guardrails", JVal.jlist [JVal.jstr "old"])])
    [("spend", JVal.jnum 5),
      ("metadata", JVal.jdict
        [("model_tpm_limit",
          JVal.jdict [("old", JVal.jnum 1), ("gpt", JVal.jnum 100)]),
          ("guardrails", JVal.jlist [JVal.jstr "g1"])])]
    (by decide) rfl
  refine ⟨by decide, rfl, ?_, ?_, ?_, ?_⟩
  · exact H.2.1 "max_parallel_requests" (JVal.jnum 0) rfl rfl (by decide)
      (by decide) (by decide) (by decide)
  · exact H.2.2.1 "spend" (JVal.jnum 5) rfl rfl (by decide) (by decide)
      (by decide) (by decide) (by decide) (by decide)
  · exact H.2.2.2.1 [("gpt", JVal.jnum 100)] [("old", JVal.jnum 1)] rfl
      (by simp) rfl
  · exact H.2.2.2.2.2 (JVal.jlist [JVal.jstr "g1"]) rfl rfl
